import Mathlib

/-!
Verification of the mini-openclaw agent runtime (Python backend) against its
natural-language specification.  Each Python function named in a claim is
shallowly embedded as an executable Lean definition operating on explicit
state; theorems below settle the claims.

String handling: the embedding implements the Python string primitives it
needs (strip / lower / split / substring containment) by structural recursion
over the character list of a `String`, so that every definition reduces inside
the kernel.
-/

namespace MiniClaw

/-! ## String and association-list utilities -/

/-- `str.strip()`: drop whitespace from both ends. -/
def strTrim (s : String) : String :=
  ⟨((s.data.dropWhile Char.isWhitespace).reverse.dropWhile Char.isWhitespace).reverse⟩

/-- `str.lower()` (ASCII case folding, which is all the code relies on). -/
def strLower (s : String) : String :=
  ⟨s.data.map Char.toLower⟩

/-- Split a character list at every separator character; empty pieces are kept. -/
def splitCharsAux (sep : Char → Bool) : List Char → List Char → List (List Char)
  | [], acc => [acc.reverse]
  | c :: rest, acc =>
      if sep c then acc.reverse :: splitCharsAux sep rest []
      else splitCharsAux sep rest (c :: acc)

def splitChars (sep : Char → Bool) (s : String) : List String :=
  (splitCharsAux sep s.data []).map (⟨·⟩)

/-- Python `str.split()` with no argument: split on whitespace runs, dropping
empty tokens. -/
def strTokens (s : String) : List String :=
  (splitChars Char.isWhitespace s).filter (· ≠ "")

/-- Substring containment, Python's `needle in hay`. -/
def listContainsSub (needle : List Char) : List Char → Bool
  | [] => needle.isEmpty
  | l@(_ :: t) => needle.isPrefixOf l || listContainsSub needle t

def strContainsSub (hay needle : String) : Bool :=
  listContainsSub needle.data hay.data

/-- First character test (`str.startswith` for a single-character prefix). -/
def strStartsWithChar (s : String) (c : Char) : Bool :=
  match s.data with
  | [] => false
  | d :: _ => d = c

/-- `"\n".join(lines)` / `sep.join`. -/
def strIntercalate (sep : String) : List String → String
  | [] => ""
  | [x] => x
  | x :: xs => x ++ sep ++ strIntercalate sep xs

/-- Python-dict lookup on an association list. -/
def alookup {α β : Type} [DecidableEq α] : List (α × β) → α → Option β
  | [], _ => none
  | (k', v) :: t, k => if k' = k then some v else alookup t k

/-- Python-dict assignment `d[k] = v`: replace in place, else append. -/
def aupsert {α β : Type} [DecidableEq α] : List (α × β) → α → β → List (α × β)
  | [], k, v => [(k, v)]
  | (k', v') :: t, k, v =>
      if k' = k then (k, v) :: t else (k', v') :: aupsert t k v

/-- Python-dict `d.pop(k, None)`: remove the binding of `k`.  (Dict keys are
unique, so removing every binding of `k` from the association list is the
same operation.) -/
def aremove {α β : Type} [DecidableEq α] : List (α × β) → α → List (α × β)
  | [], _ => []
  | (k', v') :: t, k => if k' = k then aremove t k else (k', v') :: aremove t k

/-! ## Heartbeat scheduler (`src/backend/scheduler/heartbeat.py`) -/

/-- Configuration fields of `HeartbeatRuntimeConfig` used by a tick. -/
structure HeartbeatConfig where
  active_start_hour : Int
  active_end_hour : Int
  deriving DecidableEq, Repr

/-- `HeartbeatScheduler._is_in_active_window`, as a function of the local hour. -/
def is_in_active_window (cfg : HeartbeatConfig) (hour : Int) : Bool :=
  let start := cfg.active_start_hour % 24
  let «end» := cfg.active_end_hour % 24
  if start = «end» then true
  else if start < «end» then start ≤ hour ∧ hour < «end»
  else hour ≥ start ∨ hour < «end»

/-- `HeartbeatScheduler._read_prompt`: the prompt file contents when it
exists (stripped), else the built-in default prompt. -/
def read_prompt (promptFile : Option String) : String :=
  match promptFile with
  | none => "Run a heartbeat check. Reply exactly HEARTBEAT_OK when healthy."
  | some s => strTrim s

/-- `HeartbeatScheduler._normalize_prompt`: keep non-blank lines that do not
start with `#`, re-join, strip.  (Python `splitlines` is modelled as splitting
on `'\n'`; a trailing newline yields an extra blank line, which this function
drops either way.) -/
def normalize_prompt (raw : String) : String :=
  let lines := ((splitChars (· = '\n') raw).map strTrim).filter
    (fun line => ¬ (line = "" ∨ strStartsWithChar line '#'))
  strTrim (strIntercalate "\n" lines)

/-- Outcome of one heartbeat tick: which audit status is written, and whether
the agent run was invoked. -/
inductive TickStatus where
  | skipped_outside_window
  | skipped_no_prompt
  | ok (suppressed : Bool)
  | error
  deriving DecidableEq, Repr

/-- Result of the (external) `agent_manager.run_once` call: the reply text, or
an exception. -/
inductive RunOnceResult where
  | reply (text : String)
  | exn
  deriving DecidableEq, Repr

/-- `HeartbeatScheduler._tick_once`: the control flow deciding which audit
status a tick writes.  `localHour` is the hour of `_now_local()`;
`promptFile` is the content of `workspace/HEARTBEAT.md` when the file exists;
`runResult` is what `run_once` would return if invoked. -/
def tick_once (cfg : HeartbeatConfig) (localHour : Int) (promptFile : Option String)
    (runResult : RunOnceResult) : TickStatus :=
  if ¬ is_in_active_window cfg localHour then .skipped_outside_window
  else
    let prompt := normalize_prompt (read_prompt promptFile)
    if prompt = "" then .skipped_no_prompt
    else
      match runResult with
      | .reply text => .ok (strTrim text = "HEARTBEAT_OK")
      | .exn => .error

/-! ## Usage aggregation (`src/backend/graph/agent.py`)

`AgentManager._accumulate_usage_candidate` / `_normalize_aggregated_usage`.
The usage state and each candidate are dictionaries over the ten numeric
fields of `_usage_numeric_fields()`; values are Python ints (`_as_int`
coercion), modelled as `Int`.  `_merge_usage_identity` touches only the four
identity string fields (`provider`, `model`, `model_source`, `usage_source`)
and never a numeric field, so the numeric model omits it. -/

inductive UsageField where
  | input_tokens
  | input_uncached_tokens
  | input_cache_read_tokens
  | input_cache_write_tokens_5m
  | input_cache_write_tokens_1h
  | input_cache_write_tokens_unknown
  | output_tokens
  | reasoning_tokens
  | tool_input_tokens
  | total_tokens
  deriving DecidableEq, Repr, Fintype

/-- `_usage_numeric_fields()`, in source order. -/
def usage_numeric_fields : List UsageField :=
  [.input_tokens, .input_uncached_tokens, .input_cache_read_tokens,
    .input_cache_write_tokens_5m, .input_cache_write_tokens_1h,
    .input_cache_write_tokens_unknown, .output_tokens, .reasoning_tokens,
    .tool_input_tokens, .total_tokens]

/-- A usage dictionary restricted to the ten numeric fields. -/
structure Usage where
  input_tokens : Int
  input_uncached_tokens : Int
  input_cache_read_tokens : Int
  input_cache_write_tokens_5m : Int
  input_cache_write_tokens_1h : Int
  input_cache_write_tokens_unknown : Int
  output_tokens : Int
  reasoning_tokens : Int
  tool_input_tokens : Int
  total_tokens : Int
  deriving DecidableEq, Repr

def Usage.get (u : Usage) : UsageField → Int
  | .input_tokens => u.input_tokens
  | .input_uncached_tokens => u.input_uncached_tokens
  | .input_cache_read_tokens => u.input_cache_read_tokens
  | .input_cache_write_tokens_5m => u.input_cache_write_tokens_5m
  | .input_cache_write_tokens_1h => u.input_cache_write_tokens_1h
  | .input_cache_write_tokens_unknown => u.input_cache_write_tokens_unknown
  | .output_tokens => u.output_tokens
  | .reasoning_tokens => u.reasoning_tokens
  | .tool_input_tokens => u.tool_input_tokens
  | .total_tokens => u.total_tokens

def Usage.set (u : Usage) (f : UsageField) (v : Int) : Usage :=
  match f with
  | .input_tokens => { u with input_tokens := v }
  | .input_uncached_tokens => { u with input_uncached_tokens := v }
  | .input_cache_read_tokens => { u with input_cache_read_tokens := v }
  | .input_cache_write_tokens_5m => { u with input_cache_write_tokens_5m := v }
  | .input_cache_write_tokens_1h => { u with input_cache_write_tokens_1h := v }
  | .input_cache_write_tokens_unknown => { u with input_cache_write_tokens_unknown := v }
  | .output_tokens => { u with output_tokens := v }
  | .reasoning_tokens => { u with reasoning_tokens := v }
  | .tool_input_tokens => { u with tool_input_tokens := v }
  | .total_tokens => { u with total_tokens := v }

def Usage.zero : Usage := ⟨0, 0, 0, 0, 0, 0, 0, 0, 0, 0⟩

/-- `AgentManager._normalize_aggregated_usage`, as a pure state transformer. -/
def normalize_aggregated_usage (u : Usage) : Usage :=
  let cache_write_total := u.input_cache_write_tokens_5m
    + u.input_cache_write_tokens_1h + u.input_cache_write_tokens_unknown
  let input_tokens :=
    if u.input_tokens ≤ 0 ∧ (0 < u.input_uncached_tokens
        ∨ 0 < u.input_cache_read_tokens ∨ 0 < cache_write_total) then
      u.input_uncached_tokens + u.input_cache_read_tokens + cache_write_total
    else u.input_tokens
  let uncached0 :=
    if u.input_uncached_tokens ≤ 0 ∧ 0 < input_tokens then
      max 0 (input_tokens - u.input_cache_read_tokens - cache_write_total)
    else u.input_uncached_tokens
  let input_uncached_tokens := if input_tokens < uncached0 then input_tokens else uncached0
  let computed_total := input_tokens + u.output_tokens
    + u.tool_input_tokens + u.reasoning_tokens
  let total_tokens :=
    if u.total_tokens ≤ 0 then computed_total else max u.total_tokens computed_total
  { u with
      input_tokens := input_tokens
      input_uncached_tokens := input_uncached_tokens
      total_tokens := total_tokens }

/-- The `has_signal` scan of `_accumulate_usage_candidate`. -/
def has_signal (cand : Usage) : Bool :=
  usage_numeric_fields.any (fun f => 0 < cand.get f)

/-- One iteration of the per-field loop of `_accumulate_usage_candidate`:
the accumulator is `(usage_state, previous, changed)`. -/
def accumulate_step (cand : Usage) (acc : Usage × Usage × Bool)
    (f : UsageField) : Usage × Usage × Bool :=
  let prior := acc.2.1.get f
  let incoming := cand.get f
  let next := max prior incoming
  if next ≤ prior then acc
  else (acc.1.set f (acc.1.get f + (next - prior)), acc.2.1.set f next, true)

/-- `AgentManager._accumulate_usage_candidate` (numeric part): returns the new
usage state, the new `usage_sources` map, and the `changed` flag. -/
def accumulate_usage_candidate (state : Usage) (sources : List (String × Usage))
    (sourceId : String) (cand : Usage) : Usage × List (String × Usage) × Bool :=
  let sourceKey := strTrim sourceId
  if sourceKey = "" then (state, sources, false)
  else if ¬ has_signal cand then (state, sources, false)
  else
    let previous := (alookup sources sourceKey).getD Usage.zero
    let r := usage_numeric_fields.foldl (accumulate_step cand) (state, previous, false)
    if r.2.2 then (normalize_aggregated_usage r.1, aupsert sources sourceKey r.2.1, true)
    else (r.1, sources, false)

/-- Run a whole sequence of `accumulate(source_id, candidate)` calls starting
from the empty usage state and empty sources map. -/
def accumulate_trace (trace : List (String × Usage)) : Usage × List (String × Usage) :=
  trace.foldl
    (fun acc p =>
      let r := accumulate_usage_candidate acc.1 acc.2 p.1 p.2
      (r.1, r.2.1))
    (Usage.zero, [])

/-- The maximum value ever observed for field `f` from source id `s` in a
trace (the code's per-source baseline is the zero dictionary, hence base 0). -/
def observed_max (trace : List (String × Usage)) (s : String) (f : UsageField) : Int :=
  ((trace.filter (fun p => p.1 = s)).map (fun p => p.2.get f)).foldl max 0

/-- The claim's aggregate: the sum over source ids of the maximum value ever
observed for the field from that source. -/
def sum_of_source_maxes (trace : List (String × Usage)) (f : UsageField) : Int :=
  ∑ s ∈ (trace.map Prod.fst).toFinset, observed_max trace s f

/-- The seven numeric fields that `_normalize_aggregated_usage` writes back
unchanged (it rewrites only `input_tokens`, `input_uncached_tokens` and
`total_tokens`). -/
def passthrough_fields : List UsageField :=
  [.input_cache_read_tokens, .input_cache_write_tokens_5m,
    .input_cache_write_tokens_1h, .input_cache_write_tokens_unknown,
    .output_tokens, .reasoning_tokens, .tool_input_tokens]

/-! ## Cron scheduler (`src/backend/scheduler/cron.py` and
`src/backend/api/scheduler_api.py`)

Timestamps are Python floats (`time.time()`, `datetime.timestamp()`); the
claims only add, compare, clamp (`max`/`min`) and test equality with zero,
all exact, so they are modelled as `Int` seconds. -/

inductive ScheduleType where
  | «at»
  | every
  | cron
  deriving DecidableEq, Repr

structure CronJob where
  id : String
  name : String
  schedule_type : ScheduleType
  schedule : String
  prompt : String
  enabled : Bool
  next_run_ts : Int
  created_at : Int
  updated_at : Int
  last_run_ts : Int
  last_success_ts : Int
  failure_count : Int
  last_error : String
  deriving DecidableEq, Repr

/-- The fields of `CronRuntimeConfig` that `_run_job` reads. -/
structure CronConfig where
  max_failures : Int
  retry_base_seconds : Int
  retry_max_seconds : Int
  deriving DecidableEq, Repr

/-- Python `int(s)` for the digit-only `every` schedules the scheduler
stores; a non-parsing schedule raises `ValueError` in Python (and is excluded
by validation at creation), here it defaults to 0 — the invariant theorems
only use `max 5 _ ≥ 5` and hold either way. -/
def strToInt (s : String) : Int :=
  if s.data ≠ [] ∧ s.data.all (·.isDigit) then
    ((s.data.foldl (fun acc c => acc * 10 + (c.toNat - '0'.toNat)) 0 : Nat) : Int)
  else 0

/-- `CronScheduler._compute_next_run`.  `cronNext` is an oracle for
`_next_cron_time(job.schedule, now).timestamp()` (the minute-by-minute cron
search, external to these claims). -/
def compute_next_run (job : CronJob) (now_ts : Int) (cronNext : Int) : Option Int :=
  match job.schedule_type with
  | .«at» => none
  | .every => some (now_ts + max 5 (strToInt job.schedule))
  | .cron => some cronNext

/-- What the `await agent_manager.run_once(...)` block of `_run_job` would
do: succeed with a reply text, or raise. -/
inductive CronRunOutcome where
  | success (text : String)
  | failure (err : String)
  deriving DecidableEq, Repr

/-- `CronScheduler._run_job`, as a transformer of the job record (session
persistence and the run/failure JSONL rows are external side effects). -/
def run_job (cfg : CronConfig) (job : CronJob) (now_ts : Int)
    (outcome : CronRunOutcome) (cronNext : Int) : CronJob :=
  match outcome with
  | .success _ =>
      let j := { job with
        failure_count := 0
        last_error := ""
        last_success_ts := now_ts
        last_run_ts := now_ts
        updated_at := now_ts }
      match compute_next_run j now_ts cronNext with
      | none => { j with enabled := false, next_run_ts := 0 }
      | some next => { j with next_run_ts := next }
  | .failure err =>
      let fc := job.failure_count + 1
      let backoff := min cfg.retry_max_seconds
        (cfg.retry_base_seconds * 2 ^ (max 0 (fc - 1)).toNat)
      let j := { job with
        failure_count := fc
        last_error := err
        last_run_ts := now_ts
        updated_at := now_ts
        next_run_ts := now_ts + max 5 backoff }
      if cfg.max_failures ≤ fc then { j with enabled := false } else j

/-- `CronScheduler.create_job`.  `jobId` stands for the fresh UUID, `atTs`
for `_parse_iso_datetime(schedule).timestamp()`, `cronNext` for the cron
search result. -/
def create_job (jobId name : String) (schedule_type : ScheduleType)
    (schedule prompt : String) (now_ts atTs cronNext : Int) : CronJob :=
  let next_run_ts := match schedule_type with
    | .«at» => atTs
    | .every => now_ts + max 5 (strToInt schedule)
    | .cron => cronNext
  { id := jobId
    name := if strTrim name = "" then "cron-job" else strTrim name
    schedule_type := schedule_type
    schedule := strTrim schedule
    prompt := strTrim prompt
    enabled := true
    next_run_ts := next_run_ts
    created_at := now_ts
    updated_at := now_ts
    last_run_ts := 0
    last_success_ts := 0
    failure_count := 0
    last_error := "" }

/-- The tail of `create_cron_job` (scheduler_api.py): when the request asked
for `enabled = false`, the freshly stored job is disabled with
`next_run_ts = 0`. -/
def create_cron_job_api (request_enabled : Bool) (job : CronJob) : CronJob :=
  if request_enabled = false then { job with enabled := false, next_run_ts := 0 }
  else job

/-- The optional fields of a `PUT /scheduler/cron/jobs/{id}` body. -/
structure CronJobUpdateRequest where
  name : Option String
  schedule_type : Option ScheduleType
  schedule : Option String
  prompt : Option String
  enabled : Option Bool
  deriving DecidableEq, Repr

/-- `update_cron_job` (scheduler_api.py): the job-mutation logic.
`refreshTs` is the `next_run_ts` `create_job` computes when type or schedule
changed (`none` models a `ValueError`, returned as HTTP 400 with no
mutation); `reenableTs` is the re-enable refresh (`none` models the
swallowed `ValueError` of the `except ValueError: pass` branch). -/
def update_cron_job (current : CronJob) (req : CronJobUpdateRequest)
    (now_ts : Int) (refreshTs : Option Int) (reenableTs : Option Int) :
    Option CronJob :=
  let next_name := req.name.getD current.name
  let next_type := req.schedule_type.getD current.schedule_type
  let next_schedule := req.schedule.getD current.schedule
  let next_prompt := req.prompt.getD current.prompt
  let next_enabled := req.enabled.getD current.enabled
  let step1 : Option CronJob :=
    if next_type ≠ current.schedule_type ∨ next_schedule ≠ current.schedule then
      match refreshTs with
      | none => none
      | some ts => some { current with
          schedule_type := next_type
          schedule := strTrim next_schedule
          next_run_ts := ts }
    else some current
  match step1 with
  | none => none
  | some cur0 =>
      let cur1 := { cur0 with
        name := if strTrim next_name = "" then cur0.name else strTrim next_name
        prompt := if strTrim next_prompt = "" then cur0.prompt else strTrim next_prompt
        enabled := next_enabled
        updated_at := now_ts }
      let cur2 :=
        if cur1.enabled = false then { cur1 with next_run_ts := 0 }
        else if cur1.next_run_ts ≤ 0 then
          match reenableTs with
          | some ts => { cur1 with next_run_ts := ts }
          | none => cur1
        else cur1
      some cur2

/-- The claimed `CronJob` invariant: `enabled = false ⇔ next_run_ts = 0`. -/
def cron_inv (j : CronJob) : Prop := j.enabled = false ↔ j.next_run_ts = 0

instance (j : CronJob) : Decidable (cron_inv j) := by
  unfold cron_inv
  infer_instance

/-! ## Retrieval scoring (`src/backend/graph/retrieval_store.py`)

`SQLiteRetrievalStore.retrieve`, scoring stage: the candidate rows are what
`_candidate_rows` (the FTS prefilter / recency fallback) returned, with each
`embedding_json` already parsed by `_as_embedding`.  `cosine` abstracts
`cosine_similarity` (floating-point arithmetic); scores are exact rationals
standing for Python floats. -/

structure RetrievalRow where
  source : String
  chunk_text : String
  embedding : List ℚ

/-- `{item for item in query.lower().split() if item}` — the distinct
lexical terms of the query. -/
def query_terms (query : String) : List String :=
  (strTokens (strLower query)).eraseDups

def retrieve (cosine : List ℚ → List ℚ → ℚ) (rows : List RetrievalRow)
    (query : String) (top_k : Int) (semantic_weight lexical_weight : ℚ)
    (query_embedding : List ℚ) : List (ℚ × String × String) :=
  let terms := query_terms query
  let scored := rows.filterMap (fun row =>
    let lexical : ℚ := ((terms.filter
      (fun term => strContainsSub (strLower row.chunk_text) term)).length : Nat)
    let vector := if query_embedding ≠ [] ∧ row.embedding ≠ [] then
        cosine query_embedding row.embedding
      else 0
    let score := vector * semantic_weight + lexical * lexical_weight
    if 0 < score then some (score, row.source, row.chunk_text) else none)
  let sorted := scored.mergeSort (fun a b => decide (b.1 ≤ a.1))
  sorted.take (max 1 top_k).toNat

/-- The claim's per-row score formula. -/
def claimed_score (cosine : List ℚ → List ℚ → ℚ) (query : String)
    (semantic_weight lexical_weight : ℚ) (query_embedding : List ℚ)
    (row : RetrievalRow) : ℚ :=
  (if query_embedding ≠ [] ∧ row.embedding ≠ [] then
      cosine query_embedding row.embedding
    else 0) * semantic_weight
  + (((query_terms query).filter
      (fun term => strContainsSub (strLower row.chunk_text) term)).length : Nat)
    * lexical_weight

/-! ## Prompt builder (`src/backend/graph/prompt_builder.py`)

The workspace is a map from the section-relative paths to file entries
(content and `st_mtime`); `PromptBuilder._digest` (sha256 over the
concatenated parts) is modelled by its collision-free pre-image: the cache
key as a structured value, and the pack digest as the concatenation of the
hashed parts.  The development only ever proves digest *equalities*, which
hold for the real sha256 as well. -/

structure FsEntry where
  content : String
  mtime : Int
  deriving DecidableEq, Repr

inductive InjectionMode where
  | every_turn
  | first_turn_only
  deriving DecidableEq, Repr

/-- The `RuntimeConfig` fields `build_system_prompt` reads. -/
structure PromptRuntime where
  injection_mode : InjectionMode
  bootstrap_max_chars : Nat
  bootstrap_total_max_chars : Nat
  deriving DecidableEq, Repr

structure PromptPack where
  prompt : String
  digest : String
  source_mtimes : List (String × Int)
  truncated_files : List String
  deriving DecidableEq, Repr

def RAG_GUIDANCE : String :=
  "[Memory Retrieval Mode]\nLong-term memory is injected dynamically via retrieval for this request.\nUse the retrieval context as temporary input and do not assume it is persisted.\n"

/-- The fixed `(label, rel_path)` section table of `_build_sections`. -/
def prompt_components : List (String × String) :=
  [("Skills Snapshot", "SKILLS_SNAPSHOT.md"),
    ("Soul", "workspace/SOUL.md"),
    ("Identity", "workspace/IDENTITY.md"),
    ("User Profile", "workspace/USER.md"),
    ("Heartbeat Guide", "workspace/HEARTBEAT.md"),
    ("Agents Guide", "workspace/AGENTS.md"),
    ("Long-term Memory", "memory/MEMORY.md")]

/-- `PromptBuilder._build_sections`: `(label, rel_path, content)`, with the
missing-file marker and the rag-mode memory placeholder. -/
def build_sections (fs : String → Option FsEntry) (rag_mode : Bool) :
    List (String × String × String) :=
  prompt_components.map (fun lr =>
    if rag_mode ∧ lr.2 = "memory/MEMORY.md" then (lr.1, lr.2, strTrim RAG_GUIDANCE)
    else match fs lr.2 with
      | some e => (lr.1, lr.2, e.content)
      | none => (lr.1, lr.2, "[MISSING FILE: " ++ lr.2 ++ "]"))

/-- The `source_mtimes` dictionary: `st_mtime` when the file exists, `-1.0`
otherwise. -/
def source_mtimes (fs : String → Option FsEntry) : List (String × Int) :=
  prompt_components.map (fun lr =>
    (lr.2, match fs lr.2 with | some e => e.mtime | none => -1))

/-- `PromptBuilder.truncate_component`. -/
def truncate_component (text : String) (max_chars : Nat) : String × Bool :=
  if text.length ≤ max_chars then (text, false)
  else (⟨text.data.take max_chars⟩ ++ "\n...[truncated]", true)

/-- Lexicographic-by-code-point order, as Python `sorted` on strings. -/
def charListLe : List Char → List Char → Bool
  | [], _ => true
  | _ :: _, [] => false
  | a :: as, b :: bs => if a = b then charListLe as bs else decide (a.toNat < b.toNat)

def insertMtime (x : String × Int) : List (String × Int) → List (String × Int)
  | [] => [x]
  | y :: t => if charListLe x.1.data y.1.data then x :: y :: t else y :: insertMtime x t

/-- `sorted(source_mtimes.items())` (stable insertion sort by key). -/
def sortMtimes (l : List (String × Int)) : List (String × Int) :=
  l.foldr insertMtime []

/-- The collision-free pre-image of the sha256 cache key
`_digest([str(rag_mode), injection_mode.value, str(max), str(total),
*sorted mtimes])`. -/
structure PromptCacheKey where
  rag_mode : Bool
  injection_mode : InjectionMode
  bootstrap_max_chars : Nat
  bootstrap_total_max_chars : Nat
  mtimes : List (String × Int)
  deriving DecidableEq, Repr

/-- `PromptBuilder._digest`: sha256 of the concatenated parts, modelled by
the concatenation itself (only digest equalities are ever proved). -/
def prompt_digest (parts : List String) : String :=
  strIntercalate "" parts

/-- The cache key `build_system_prompt` computes (pre-image form, see
`prompt_digest`). -/
def prompt_cache_key (fs : String → Option FsEntry) (runtime : PromptRuntime)
    (rag_mode : Bool) : PromptCacheKey :=
  ⟨rag_mode, runtime.injection_mode, runtime.bootstrap_max_chars,
    runtime.bootstrap_total_max_chars, sortMtimes (source_mtimes fs)⟩

/-- The cache-miss path of `build_system_prompt`: render every section with
per-section truncation, join, apply the total cap, digest. -/
def render_pack (fs : String → Option FsEntry) (runtime : PromptRuntime)
    (rag_mode : Bool) : PromptPack :=
  let rendered := (build_sections fs rag_mode).map (fun s =>
    let tc := truncate_component s.2.2 runtime.bootstrap_max_chars
    ("<!-- " ++ s.1 ++ " -->\n" ++ tc.1, tc.2, s.2.1))
  let truncated_files := (rendered.filter (fun r => r.2.1 = true)).map
    (fun r => r.2.2)
  let prompt0 := strIntercalate "\n\n" (rendered.map (fun r => r.1))
  let prompt :=
    if runtime.bootstrap_total_max_chars < prompt0.length then
      (⟨prompt0.data.take runtime.bootstrap_total_max_chars⟩ : String)
        ++ "\n...[truncated_total]"
    else prompt0
  ⟨prompt, prompt_digest [prompt], source_mtimes fs, truncated_files⟩

/-- `PromptBuilder.build_system_prompt`: returns the pack and the builder's
updated `_cache`. -/
def build_system_prompt (cache : List (PromptCacheKey × PromptPack))
    (fs : String → Option FsEntry) (runtime : PromptRuntime)
    (rag_mode : Bool) (is_first_turn : Bool) :
    PromptPack × List (PromptCacheKey × PromptPack) :=
  if runtime.injection_mode = .first_turn_only ∧ ¬ is_first_turn then
    (⟨"", "", [], []⟩, cache)
  else
    match alookup cache (prompt_cache_key fs runtime rag_mode) with
    | some pack => (pack, cache)
    | none =>
        (render_pack fs runtime rag_mode,
          aupsert cache (prompt_cache_key fs runtime rag_mode)
            (render_pack fs runtime rag_mode))

/-- The active-hour window exactly as the claim words it: the half-open
interval `[active_start_hour, active_end_hour)`, read with wrap-around when
`start > end` and as always-active when the bounds coincide. -/
def claimWindow (start «end» hour : Int) : Prop :=
  start = «end»
    ∨ (start < «end» ∧ start ≤ hour ∧ hour < «end»)
    ∨ («end» < start ∧ (start ≤ hour ∨ hour < «end»))

instance (start «end» hour : Int) : Decidable (claimWindow start «end» hour) := by
  unfold claimWindow
  infer_instance

/-! ## Tool policy engine (`src/backend/tools/policy.py`) -/

/-- `PermissionLevel` (an `IntEnum` in the source; compared by value). -/
inductive PermissionLevel where
  | L0_READ
  | L1_WRITE
  | L2_NETWORK
  | L3_SYSTEM
  deriving DecidableEq, Repr

def PermissionLevel.toNat : PermissionLevel → Nat
  | .L0_READ => 0
  | .L1_WRITE => 1
  | .L2_NETWORK => 2
  | .L3_SYSTEM => 3

def DEFAULT_MAX_LEVEL_BY_TRIGGER : List (String × PermissionLevel) :=
  [("chat", .L3_SYSTEM), ("heartbeat", .L0_READ), ("cron", .L0_READ)]

def AUTONOMOUS_TRIGGERS : List String := ["heartbeat", "cron"]

structure PolicyDecision where
  allowed : Bool
  reason : String
  deriving DecidableEq, Repr

/-- `ToolPolicyEngine.is_allowed`.  Every engine in the repository is
constructed fresh with `max_level_by_trigger` equal to the default table, so
the table is inlined here.  `explicitEnabledTools` models
`set(explicit_enabled_tools or [])`; reason strings keep the code's prefixes
but drop the interpolated details. -/
def is_allowed (toolName : String) (permissionLevel : PermissionLevel)
    (triggerType : String) (explicitEnabledTools : List String) : PolicyDecision :=
  let maxLevel := (alookup DEFAULT_MAX_LEVEL_BY_TRIGGER triggerType).getD .L0_READ
  let levelCheck : PolicyDecision :=
    if maxLevel.toNat < permissionLevel.toNat then
      ⟨false, "permission level exceeds max for trigger"⟩
    else ⟨true, "allowed"⟩
  if AUTONOMOUS_TRIGGERS.contains triggerType then
    if explicitEnabledTools.contains toolName then ⟨true, "allowed_via_explicit_enable"⟩
    else levelCheck
  else if explicitEnabledTools ≠ [] ∧ ¬ explicitEnabledTools.contains toolName then
    ⟨false, "tool is not in explicit enabled set"⟩
  else levelCheck

/-! ## Workspace path guard (`src/backend/tools/path_guard.py`) -/

/-- Components of a path string as `pathlib.PurePosixPath.parts` produces them
for a relative path: split on `/`, dropping empty components and `"."`. -/
def pathParts (s : String) : List String :=
  (splitChars (· = '/') s).filter (fun p => ¬ (p = "" ∨ p = "."))

/-- `resolve_workspace_path`.  Paths are component lists; `res` models
`Path.resolve()` (filesystem canonicalisation including symlinks) and is kept
parametric so the theorems hold for every filesystem.  `Path.is_relative_to`
is the lexical component-prefix test.  Errors model `InvalidPathError`. -/
def resolve_workspace_path (res : List String → List String)
    (root_dir : List String) (candidate_path : String) : Except String (List String) :=
  let raw := strTrim candidate_path
  if raw = "" then .error "Path must not be empty"
  else if strStartsWithChar raw '/' then .error "Absolute paths are not allowed"
  else if (pathParts raw).contains ".." then
    .error "Parent directory traversal is not allowed"
  else
    let root := res root_dir
    let candidate := res (root ++ pathParts raw)
    if ¬ root.isPrefixOf candidate then .error "Path escapes workspace root"
    else .ok candidate

/-! ## Tool runner retry guard (`src/backend/tools/runner.py`) -/

/-- The `ToolContext` fields `_scope_key` reads (a `None` id is modelled as
the empty string, matching Python truthiness). -/
structure ToolContext where
  run_id : String
  session_id : String
  trigger_type : String
  deriving DecidableEq, Repr

/-- `ToolRunner._scope_key`. -/
def scope_key (ctx : ToolContext) : String :=
  if ctx.run_id ≠ "" then ctx.run_id
  else (if ctx.session_id ≠ "" then ctx.session_id else "__session__")
    ++ ":" ++ ctx.trigger_type

/-- `ToolResult` restricted to what the retry guard inspects: `ok` versus a
failure with its error code and message (`data`/`meta` payloads omitted). -/
inductive ToolResult where
  | ok
  | fail (code : String) (message : String)
  deriving DecidableEq, Repr

/-- What `tool.run(args, context)` would do if invoked: return a result, or
raise an exception. -/
inductive ToolInvocation where
  | returns (r : ToolResult)
  | raises (msg : String)
  deriving DecidableEq, Repr

/-- Mutable state of a `ToolRunner`: the identical-failure counter map keyed
by `(scope_key, tool_name, args_fingerprint)`, and the configured limit
(already clamped by `max(1, ...)` in `__init__`; the default is 2). -/
structure RunnerState where
  repeat_identical_failure_limit : Nat
  repeat_failure_counts : List ((String × String × String) × Nat)
  deriving DecidableEq, Repr

/-- `ToolRunner.run_tool`.  Audit-log writes are pure side effects and are
omitted; `argsFingerprint` stands for `_args_fingerprint(args)` (identical
arguments have identical fingerprints); `invocation` is the behaviour of the
tool if it were invoked. -/
def run_tool (st : RunnerState) (toolName : String)
    (permissionLevel : PermissionLevel) (ctx : ToolContext)
    (explicitEnabledTools : List String) (argsFingerprint : String)
    (invocation : ToolInvocation) : ToolResult × RunnerState :=
  let decision := is_allowed toolName permissionLevel ctx.trigger_type explicitEnabledTools
  if ¬ decision.allowed then
    (.fail "E_POLICY_DENIED" decision.reason, st)
  else
    let failureKey := (scope_key ctx, toolName, argsFingerprint)
    let priorFailures := (alookup st.repeat_failure_counts failureKey).getD 0
    if st.repeat_identical_failure_limit ≤ priorFailures then
      (.fail "E_POLICY_DENIED" "Repeated identical tool failure; retry blocked for this run",
        st)
    else
      match invocation with
      | .returns .ok =>
          (.ok, { st with
            repeat_failure_counts := aremove st.repeat_failure_counts failureKey })
      | .returns (.fail c m) =>
          (.fail c m, { st with
            repeat_failure_counts :=
              aupsert st.repeat_failure_counts failureKey (priorFailures + 1) })
      | .raises _ =>
          (.fail "E_INTERNAL" "Unhandled tool exception", { st with
            repeat_failure_counts :=
              aupsert st.repeat_failure_counts failureKey (priorFailures + 1) })

end MiniClaw

namespace MiniClaw

lemma alookup_aupsert_self {α β : Type} [DecidableEq α] (l : List (α × β))
    (k : α) (v : β) : alookup (aupsert l k v) k = some v := by
  induction l with
  | nil => simp [aupsert, alookup]
  | cons hd tl ih =>
      by_cases h : hd.1 = k
      · simp [aupsert, alookup, h]
      · simp [aupsert, alookup, h, ih]

lemma alookup_aremove_self {α β : Type} [DecidableEq α] (l : List (α × β))
    (k : α) : alookup (aremove l k) k = none := by
  induction l with
  | nil => simp [aremove, alookup]
  | cons hd tl ih =>
      by_cases h : hd.1 = k
      · simp [aremove, alookup, h, ih]
      · simp [aremove, alookup, h, ih]

lemma alookup_aupsert_ne {α β : Type} [DecidableEq α] (l : List (α × β))
    (k k' : α) (v : β) (h : k' ≠ k) : alookup (aupsert l k v) k' = alookup l k' := by
  have h' : ¬ (k = k') := fun hh => h hh.symm
  induction l with
  | nil => simp [aupsert, alookup, h']
  | cons hd tl ih =>
      by_cases hk : hd.1 = k
      · simp [aupsert, alookup, hk, h']
      · simp only [aupsert, if_neg hk]
        by_cases hk' : hd.1 = k'
        · simp [alookup, hk']
        · simp [alookup, hk', ih]

lemma mem_usage_numeric_fields (f : UsageField) : f ∈ usage_numeric_fields := by
  cases f <;> simp [usage_numeric_fields]

lemma Usage.get_set (u : Usage) (f g : UsageField) (v : Int) :
    (u.set f v).get g = if g = f then v else u.get g := by
  cases f <;> cases g <;> simp [Usage.set, Usage.get]

lemma Usage.zero_get (f : UsageField) : Usage.zero.get f = 0 := by
  cases f <;> rfl

lemma accumulate_step_state_get (cand : Usage) (acc : Usage × Usage × Bool)
    (f g : UsageField) :
    ((accumulate_step cand acc f).1).get g
      = acc.1.get g
        + (if g = f then max (acc.2.1.get f) (cand.get f) - acc.2.1.get f else 0) := by
  unfold accumulate_step
  dsimp only
  by_cases h1 : max (acc.2.1.get f) (cand.get f) ≤ acc.2.1.get f
  · rw [if_pos h1]
    have hm : max (acc.2.1.get f) (cand.get f) = acc.2.1.get f :=
      le_antisymm h1 (le_max_left _ _)
    rw [hm]
    split_ifs with h2 <;> omega
  · rw [if_neg h1]
    dsimp only
    rw [Usage.get_set]
    split_ifs with h2
    · subst h2
      rfl
    · omega

lemma accumulate_step_prev_get (cand : Usage) (acc : Usage × Usage × Bool)
    (f g : UsageField) :
    ((accumulate_step cand acc f).2.1).get g
      = if g = f then max (acc.2.1.get f) (cand.get f) else acc.2.1.get g := by
  unfold accumulate_step
  dsimp only
  by_cases h1 : max (acc.2.1.get f) (cand.get f) ≤ acc.2.1.get f
  · rw [if_pos h1]
    have hm : max (acc.2.1.get f) (cand.get f) = acc.2.1.get f :=
      le_antisymm h1 (le_max_left _ _)
    split_ifs with h2
    · subst h2
      exact hm.symm
    · rfl
  · rw [if_neg h1]
    dsimp only
    rw [Usage.get_set]

lemma accumulate_step_changed_true (cand : Usage) (acc : Usage × Usage × Bool)
    (f : UsageField) (h : acc.2.2 = true) : (accumulate_step cand acc f).2.2 = true := by
  unfold accumulate_step
  dsimp only
  split_ifs with h1
  · exact h
  · rfl

lemma accumulate_step_noop (cand : Usage) (acc : Usage × Usage × Bool)
    (f : UsageField) (h : cand.get f ≤ acc.2.1.get f) :
    accumulate_step cand acc f = acc := by
  unfold accumulate_step
  dsimp only
  rw [if_pos (by omega : max (acc.2.1.get f) (cand.get f) ≤ acc.2.1.get f)]

lemma fold_step_changed_true (cand : Usage) (fs : List UsageField) :
    ∀ acc : Usage × Usage × Bool, acc.2.2 = true →
      (fs.foldl (accumulate_step cand) acc).2.2 = true := by
  induction fs with
  | nil => intro acc h; simpa using h
  | cons f rest ih =>
      intro acc h
      simp only [List.foldl_cons]
      exact ih _ (accumulate_step_changed_true cand acc f h)

lemma fold_step_prev_get (cand : Usage) (fs : List UsageField) :
    ∀ (acc : Usage × Usage × Bool) (g : UsageField),
      ((fs.foldl (accumulate_step cand) acc).2.1).get g
        = if g ∈ fs then max (acc.2.1.get g) (cand.get g) else acc.2.1.get g := by
  induction fs with
  | nil => intro acc g; simp
  | cons f rest ih =>
      intro acc g
      simp only [List.foldl_cons, ih, accumulate_step_prev_get, List.mem_cons]
      by_cases hgf : g = f
      · subst hgf
        by_cases hgr : g ∈ rest <;> simp [hgr]
      · by_cases hgr : g ∈ rest <;> simp [hgr, hgf]

lemma fold_step_state_get (cand : Usage) (fs : List UsageField) :
    ∀ (acc : Usage × Usage × Bool) (g : UsageField),
      ((fs.foldl (accumulate_step cand) acc).1).get g
        = acc.1.get g
          + (if g ∈ fs then max (acc.2.1.get g) (cand.get g) - acc.2.1.get g else 0) := by
  induction fs with
  | nil => intro acc g; simp
  | cons f rest ih =>
      intro acc g
      simp only [List.foldl_cons, ih, accumulate_step_state_get,
        accumulate_step_prev_get, List.mem_cons]
      by_cases hgf : g = f
      · subst hgf
        by_cases hgr : g ∈ rest <;> simp [hgr]
      · by_cases hgr : g ∈ rest <;> simp [hgr, hgf]

lemma fold_step_unchanged (cand : Usage) (fs : List UsageField) :
    ∀ acc : Usage × Usage × Bool,
      (fs.foldl (accumulate_step cand) acc).2.2 = false →
        acc.2.2 = false ∧ ∀ f ∈ fs, cand.get f ≤ acc.2.1.get f := by
  induction fs with
  | nil => intro acc h; simpa using h
  | cons f rest ih =>
      intro acc h
      simp only [List.foldl_cons] at h
      have hstep : (accumulate_step cand acc f).2.2 = false := by
        rcases Bool.eq_false_or_eq_true (accumulate_step cand acc f).2.2 with hs | hs
        · rw [fold_step_changed_true cand rest _ hs] at h
          exact absurd h (by simp)
        · exact hs
      have hle : cand.get f ≤ acc.2.1.get f := by
        by_contra hlt
        unfold accumulate_step at hstep
        rw [if_neg (by omega : ¬ max (acc.2.1.get f) (cand.get f) ≤ acc.2.1.get f)]
          at hstep
        exact absurd hstep (by simp)
      rw [accumulate_step_noop cand acc f hle] at h
      obtain ⟨hch, hrest⟩ := ih acc h
      refine ⟨hch, ?_⟩
      intro g hg
      rcases List.mem_cons.mp hg with rfl | hg
      · exact hle
      · exact hrest g hg

lemma fold_step_dominated (cand : Usage) (fs : List UsageField) :
    ∀ acc : Usage × Usage × Bool,
      (∀ f ∈ fs, cand.get f ≤ acc.2.1.get f) →
        fs.foldl (accumulate_step cand) acc = acc := by
  induction fs with
  | nil => intro acc _; rfl
  | cons f rest ih =>
      intro acc hdom
      simp only [List.foldl_cons]
      rw [accumulate_step_noop cand acc f (hdom f (by simp))]
      exact ih acc (fun g hg => hdom g (List.mem_cons_of_mem f hg))

lemma foldl_max_init_le (b : Int) (l : List Int) : b ≤ l.foldl max b := by
  induction l generalizing b with
  | nil => simp
  | cons x t ih => exact le_trans (le_max_left b x) (ih (max b x))

lemma foldl_max_mem_le (x : Int) (l : List Int) (h : x ∈ l) :
    ∀ b, x ≤ l.foldl max b := by
  induction l with
  | nil => cases h
  | cons y t ih =>
      intro b
      rcases List.mem_cons.mp h with rfl | h'
      · exact le_trans (le_max_right b x) (foldl_max_init_le _ t)
      · rw [List.foldl_cons]
        exact ih h' (max b y)

lemma observed_max_nonneg (t : List (String × Usage)) (s : String) (f : UsageField) :
    0 ≤ observed_max t s f :=
  foldl_max_init_le 0 _

lemma observed_max_append (t : List (String × Usage)) (p : String × Usage)
    (s : String) (f : UsageField) :
    observed_max (t ++ [p]) s f
      = if p.1 = s then max (observed_max t s f) (p.2.get f)
        else observed_max t s f := by
  unfold observed_max
  rw [List.filter_append, List.map_append, List.foldl_append]
  by_cases h : p.1 = s <;> simp [h]

lemma observed_max_mem (t : List (String × Usage)) (p : String × Usage)
    (f : UsageField) (h : p ∈ t) : p.2.get f ≤ observed_max t p.1 f := by
  apply foldl_max_mem_le
  apply List.mem_map_of_mem
  exact List.mem_filter.mpr ⟨h, by simp⟩

lemma observed_max_of_not_mem (t : List (String × Usage)) (s : String)
    (f : UsageField) (h : s ∉ t.map Prod.fst) : observed_max t s f = 0 := by
  unfold observed_max
  have : t.filter (fun p => p.1 = s) = [] := by
    rw [List.filter_eq_nil_iff]
    intro p hp hps
    exact h (List.mem_map.mpr ⟨p, hp, by simpa using hps⟩)
  simp [this]

lemma sum_of_source_maxes_append (t : List (String × Usage)) (p : String × Usage)
    (f : UsageField) :
    sum_of_source_maxes (t ++ [p]) f
      = sum_of_source_maxes t f
        + (max (observed_max t p.1 f) (p.2.get f) - observed_max t p.1 f) := by
  unfold sum_of_source_maxes
  have hset : ((t ++ [p]).map Prod.fst).toFinset
      = insert p.1 (t.map Prod.fst).toFinset := by
    ext x
    simp [List.toFinset_append, or_comm]
  rw [hset]
  have hcongr : ∀ k ∈ (t.map Prod.fst).toFinset.erase p.1,
      observed_max (t ++ [p]) k f = observed_max t k f := by
    intro k hk
    rw [observed_max_append]
    rw [if_neg (fun hh => (Finset.mem_erase.mp hk).1 hh.symm)]
  by_cases hp : p.1 ∈ (t.map Prod.fst).toFinset
  · rw [Finset.insert_eq_self.mpr hp]
    rw [← Finset.add_sum_erase _ _ hp, ← Finset.add_sum_erase _ (fun k => observed_max t k f) hp]
    rw [Finset.sum_congr rfl hcongr]
    rw [observed_max_append, if_pos rfl]
    ring
  · rw [Finset.sum_insert hp]
    have hTsum : ∑ x ∈ (t.map Prod.fst).toFinset, observed_max (t ++ [p]) x f
        = ∑ x ∈ (t.map Prod.fst).toFinset, observed_max t x f := by
      refine Finset.sum_congr rfl ?_
      intro k hk
      rw [observed_max_append]
      rw [if_neg (fun hh => hp (by rw [hh]; exact hk))]
    rw [hTsum, observed_max_append, if_pos rfl]
    rw [observed_max_of_not_mem t p.1 f (by simpa using hp)]
    ring

lemma normalize_passthrough (u : Usage) :
    ∀ f ∈ passthrough_fields,
      (normalize_aggregated_usage u).get f = u.get f := by
  intro f hf
  simp only [passthrough_fields, List.mem_cons, List.not_mem_nil, or_false] at hf
  rcases hf with rfl | rfl | rfl | rfl | rfl | rfl | rfl <;> rfl

lemma accumulate_noop (state : Usage) (sources : List (String × Usage))
    (sourceId : String) (cand : Usage)
    (hdom : ∀ f, cand.get f
      ≤ ((alookup sources (strTrim sourceId)).getD Usage.zero).get f) :
    accumulate_usage_candidate state sources sourceId cand
      = (state, sources, false) := by
  unfold accumulate_usage_candidate
  dsimp only
  by_cases h1 : strTrim sourceId = ""
  · rw [if_pos h1]
  · rw [if_neg h1]
    by_cases h2 : has_signal cand = true
    · rw [if_neg (by simp [h2] : ¬ (¬ has_signal cand = true))]
      rw [fold_step_dominated cand usage_numeric_fields _ (fun f _ => hdom f)]
      rfl
    · rw [if_pos (by simp [h2] : ¬ has_signal cand = true)]

lemma accumulate_of_not_signal (state : Usage) (sources : List (String × Usage))
    (sourceId : String) (cand : Usage) (hsig : has_signal cand = false) :
    accumulate_usage_candidate state sources sourceId cand
      = (state, sources, false) := by
  unfold accumulate_usage_candidate
  dsimp only
  by_cases h1 : strTrim sourceId = ""
  · rw [if_pos h1]
  · rw [if_neg h1, if_pos (by simp [hsig])]

lemma accumulate_signal (state : Usage) (sources : List (String × Usage))
    (sourceId : String) (cand : Usage) (hs : ¬ strTrim sourceId = "")
    (hsig : has_signal cand = true) :
    accumulate_usage_candidate state sources sourceId cand
      = (let prev := (alookup sources (strTrim sourceId)).getD Usage.zero
         let r := usage_numeric_fields.foldl (accumulate_step cand) (state, prev, false)
         if r.2.2 then
           (normalize_aggregated_usage r.1, aupsert sources (strTrim sourceId) r.2.1, true)
         else (r.1, sources, false)) := by
  unfold accumulate_usage_candidate
  dsimp only
  rw [if_neg hs, if_neg (by simp [hsig])]

lemma not_signal_fields (cand : Usage) (hsig : has_signal cand = false) :
    ∀ f, cand.get f ≤ 0 := by
  have h : ∀ x ∈ usage_numeric_fields, cand.get x ≤ 0 := by
    simpa [has_signal] using hsig
  exact fun f => h f (mem_usage_numeric_fields f)

/-- The running invariant of `accumulate(source_id, candidate)`: the
passthrough fields of the aggregated state are the sums of per-source maxima,
and each per-source record holds the per-field maximum observed so far. -/
lemma usage_inv_trace (trace : List (String × Usage)) :
    (∀ p ∈ trace, strTrim p.1 = p.1 ∧ p.1 ≠ "") →
    (∀ f ∈ passthrough_fields,
      (accumulate_trace trace).1.get f = sum_of_source_maxes trace f)
    ∧ (∀ k f, ((alookup (accumulate_trace trace).2 k).getD Usage.zero).get f
        = observed_max trace k f) := by
  induction trace using List.reverseRecOn with
  | nil =>
      intro _
      constructor
      · intro f _
        simp [accumulate_trace, sum_of_source_maxes, Usage.zero_get]
      · intro k f
        simp [accumulate_trace, alookup, observed_max, Usage.zero_get]
  | append_singleton t p ih =>
      intro hids
      obtain ⟨hA, hB⟩ := ih (fun q hq => hids q (List.mem_append_left _ hq))
      obtain ⟨hts, hne⟩ := hids p (by simp)
      have hstep : accumulate_trace (t ++ [p])
          = ((accumulate_usage_candidate (accumulate_trace t).1
                (accumulate_trace t).2 p.1 p.2).1,
             (accumulate_usage_candidate (accumulate_trace t).1
                (accumulate_trace t).2 p.1 p.2).2.1) := by
        unfold accumulate_trace
        rw [List.foldl_append]
        rfl
      rw [hstep]
      rcases Bool.eq_false_or_eq_true (has_signal p.2) with hsig | hsig
      · -- the candidate carries signal
        rw [accumulate_signal _ _ _ _ (by rw [hts]; exact hne) hsig]
        dsimp only
        rw [hts]
        set st := (accumulate_trace t).1 with hst
        set srcs := (accumulate_trace t).2 with hsrcs
        set prev := (alookup srcs p.1).getD Usage.zero with hprev
        have hprevf : ∀ f, prev.get f = observed_max t p.1 f := fun f => hB p.1 f
        rcases Bool.eq_false_or_eq_true
            ((usage_numeric_fields.foldl (accumulate_step p.2) (st, prev, false)).2.2)
          with hch | hch
        · -- some field increased: state gains the deltas, the record the maxima
          rw [if_pos hch]
          constructor
          · intro f hf
            dsimp only
            rw [normalize_passthrough _ f hf]
            rw [fold_step_state_get p.2 usage_numeric_fields (st, prev, false) f]
            rw [if_pos (mem_usage_numeric_fields f)]
            rw [sum_of_source_maxes_append]
            rw [hA f hf, hprevf f]
          · intro k f
            dsimp only
            by_cases hk : k = p.1
            · subst hk
              rw [alookup_aupsert_self]
              simp only [Option.getD_some]
              rw [fold_step_prev_get p.2 usage_numeric_fields (st, prev, false) f]
              rw [if_pos (mem_usage_numeric_fields f)]
              rw [observed_max_append, if_pos rfl]
              rw [hprevf f]
            · rw [alookup_aupsert_ne _ _ _ _ hk]
              rw [observed_max_append, if_neg (fun hh => hk hh.symm)]
              exact hB k f
        · -- nothing increased: the fold is the identity and nothing is written
          obtain ⟨-, hdom⟩ := fold_step_unchanged p.2 usage_numeric_fields _ hch
          have hfold := fold_step_dominated p.2 usage_numeric_fields (st, prev, false)
            (fun f hf => hdom f hf)
          rw [hfold]
          rw [if_neg (by simp)]
          constructor
          · intro f hf
            dsimp only
            rw [sum_of_source_maxes_append]
            have hle : p.2.get f ≤ observed_max t p.1 f := by
              rw [← hprevf f]
              exact hdom f (mem_usage_numeric_fields f)
            rw [max_eq_left hle]
            simpa using hA f hf
          · intro k f
            dsimp only
            rw [observed_max_append]
            by_cases hk : p.1 = k
            · rw [if_pos hk, ← hk]
              have hle : p.2.get f ≤ observed_max t p.1 f := by
                rw [← hprevf f]
                exact hdom f (mem_usage_numeric_fields f)
              rw [max_eq_left hle, ← hB p.1 f]
            · rw [if_neg hk]
              exact hB k f
      · -- no numeric signal: the call is a no-op and the maxima do not move
        rw [accumulate_of_not_signal _ _ _ _ hsig]
        have hfle : ∀ f, p.2.get f ≤ 0 := not_signal_fields p.2 hsig
        constructor
        · intro f hf
          rw [sum_of_source_maxes_append]
          have : max (observed_max t p.1 f) (p.2.get f) = observed_max t p.1 f :=
            max_eq_left (le_trans (hfle f) (observed_max_nonneg t p.1 f))
          rw [this]
          simpa using hA f hf
        · intro k f
          rw [observed_max_append]
          by_cases hk : p.1 = k
          · rw [if_pos hk, ← hk]
            have : max (observed_max t p.1 f) (p.2.get f) = observed_max t p.1 f :=
              max_eq_left (le_trans (hfle f) (observed_max_nonneg t p.1 f))
            rw [this, ← hB p.1 f]
          · rw [if_neg hk]
            exact hB k f

lemma is_in_active_window_iff (cfg : HeartbeatConfig) (hour : Int)
    (hs0 : 0 ≤ cfg.active_start_hour) (hs1 : cfg.active_start_hour < 24)
    (he0 : 0 ≤ cfg.active_end_hour) (he1 : cfg.active_end_hour < 24) :
    is_in_active_window cfg hour = true
      ↔ claimWindow cfg.active_start_hour cfg.active_end_hour hour := by
  have hs : cfg.active_start_hour % 24 = cfg.active_start_hour :=
    Int.emod_eq_of_lt hs0 hs1
  have he : cfg.active_end_hour % 24 = cfg.active_end_hour :=
    Int.emod_eq_of_lt he0 he1
  simp only [is_in_active_window, hs, he, claimWindow]
  split_ifs with h1 h2 <;> simp_all <;> omega

lemma tick_once_out_window (cfg : HeartbeatConfig) (hour : Int) (pf : Option String)
    (rr : RunOnceResult) (hw : is_in_active_window cfg hour = false) :
    tick_once cfg hour pf rr = .skipped_outside_window := by
  simp [tick_once, hw]

lemma tick_once_in_window (cfg : HeartbeatConfig) (hour : Int) (pf : Option String)
    (rr : RunOnceResult) (hw : is_in_active_window cfg hour = true) :
    tick_once cfg hour pf rr =
      if normalize_prompt (read_prompt pf) = "" then .skipped_no_prompt
      else match rr with
        | .reply t => .ok (strTrim t = "HEARTBEAT_OK")
        | .exn => .error := by
  simp [tick_once, hw]

-- sanity examples (compile-time checks of the embedding)
example : strTrim "  a " = "a" := by decide
example : strTokens "a b  c" = ["a", "b", "c"] := by decide
example : normalize_prompt "# comment\n\n  hello " = "hello" := by decide
example : normalize_prompt "# only\n#comments\n\n" = "" := by decide
example :
    normalize_prompt "Run a heartbeat check. Reply exactly HEARTBEAT_OK when healthy."
      = "Run a heartbeat check. Reply exactly HEARTBEAT_OK when healthy." := by decide

/-- **C8.**  A heartbeat tick proceeds past the window check exactly when the
local hour lies in `[active_start_hour, active_end_hour)` (wrap-around when
`start > end`, always-active when equal); outside the window the tick writes
the `skipped_outside_window` audit status and performs no agent run (the
outcome does not depend on the prompt file or on what a run would return). -/
theorem C8_heartbeat_active_window (cfg : HeartbeatConfig) (hour : Int)
    (hs0 : 0 ≤ cfg.active_start_hour) (hs1 : cfg.active_start_hour < 24)
    (he0 : 0 ≤ cfg.active_end_hour) (he1 : cfg.active_end_hour < 24) :
    (¬ claimWindow cfg.active_start_hour cfg.active_end_hour hour →
        ∀ pf rr, tick_once cfg hour pf rr = .skipped_outside_window)
    ∧ (claimWindow cfg.active_start_hour cfg.active_end_hour hour →
        ∀ pf rr, tick_once cfg hour pf rr ≠ .skipped_outside_window) := by
  have hiff := is_in_active_window_iff cfg hour hs0 hs1 he0 he1
  constructor
  · intro hcw pf rr
    have hb : is_in_active_window cfg hour = false := by
      rcases Bool.eq_false_or_eq_true (is_in_active_window cfg hour) with h | h
      · exact absurd (hiff.mp h) hcw
      · exact h
    exact tick_once_out_window cfg hour pf rr hb
  · intro hcw pf rr
    have hb : is_in_active_window cfg hour = true := hiff.mpr hcw
    rw [tick_once_in_window cfg hour pf rr hb]
    split
    · simp
    · cases rr <;> simp

/-- Witness for C8 at a concrete input: window `[22, 6)` wraps past midnight;
hour 23 is inside, and a tick at hour 23 is not skipped as outside-window. -/
theorem C8_witness :
    (0 : Int) ≤ 22 ∧ (22 : Int) < 24 ∧ (0 : Int) ≤ 6 ∧ (6 : Int) < 24
    ∧ claimWindow 22 6 23
    ∧ ∀ pf rr, tick_once ⟨22, 6⟩ 23 pf rr ≠ .skipped_outside_window :=
  ⟨by decide, by decide, by decide, by decide, by decide,
    (C8_heartbeat_active_window ⟨22, 6⟩ 23 (by decide) (by decide) (by decide)
      (by decide)).2 (by decide)⟩

/-- **C10.**  When `workspace/HEARTBEAT.md` does not exist, an in-window tick
does not skip with `skipped_no_prompt`: it substitutes the built-in default
prompt and proceeds to invoke the agent run; `skipped_no_prompt` is only
produced when the file exists but normalises to the empty string. -/
theorem C10_heartbeat_default_prompt (cfg : HeartbeatConfig) (hour : Int)
    (hw : is_in_active_window cfg hour = true) :
    read_prompt none = "Run a heartbeat check. Reply exactly HEARTBEAT_OK when healthy."
    ∧ (∀ rr, tick_once cfg hour none rr ≠ .skipped_no_prompt)
    ∧ (∀ t, tick_once cfg hour none (.reply t) = .ok (strTrim t = "HEARTBEAT_OK"))
    ∧ tick_once cfg hour none .exn = .error
    ∧ (∀ pf rr, tick_once cfg hour pf rr = .skipped_no_prompt →
        ∃ s, pf = some s ∧ normalize_prompt (strTrim s) = "") := by
  have hdefault :
      normalize_prompt (read_prompt none) =
        "Run a heartbeat check. Reply exactly HEARTBEAT_OK when healthy." := by decide
  have hne : normalize_prompt (read_prompt none) ≠ "" := by decide
  refine ⟨rfl, ?_, ?_, ?_, ?_⟩
  · intro rr
    rw [tick_once_in_window cfg hour none rr hw, if_neg hne]
    cases rr <;> simp
  · intro t
    rw [tick_once_in_window cfg hour none (.reply t) hw, if_neg hne]
  · rw [tick_once_in_window cfg hour none .exn hw, if_neg hne]
  · intro pf rr h
    cases pf with
    | none =>
        exfalso
        rw [tick_once_in_window cfg hour none rr hw, if_neg hne] at h
        cases rr <;> simp_all
    | some s =>
        refine ⟨s, rfl, ?_⟩
        by_contra hne2
        rw [tick_once_in_window cfg hour (some s) rr hw] at h
        simp only [read_prompt] at h
        rw [if_neg hne2] at h
        cases rr <;> simp_all

/-- Witness for C10: with window bounds `8–20` and local hour 12 the tick is
in-window, and with no prompt file a successful run yields status `ok`. -/
theorem C10_witness :
    is_in_active_window ⟨8, 20⟩ 12 = true
    ∧ ∀ t, tick_once ⟨8, 20⟩ 12 none (.reply t) = .ok (strTrim t = "HEARTBEAT_OK") :=
  ⟨by decide, (C10_heartbeat_default_prompt ⟨8, 20⟩ 12 (by decide)).2.2.1⟩

/-- **C2.**  `resolve_workspace_path(root, rel)` fails with an invalid-path
error exactly when the stripped `rel` is empty, or is absolute, or contains a
`..` component, or the canonical resolution of `root/rel` does not descend
from the canonical root; on normal return the produced path lies inside the
canonical workspace root.  (`res` is an arbitrary filesystem
canonicalisation, so this holds for every filesystem, symlinks included;
emptiness/absoluteness/components are judged on the stripped string, exactly
as the code does.) -/
theorem C2_path_guard (res : List String → List String) (root : List String)
    (cand : String) :
    ((∃ e, resolve_workspace_path res root cand = .error e) ↔
      (strTrim cand = ""
        ∨ strStartsWithChar (strTrim cand) '/' = true
        ∨ (pathParts (strTrim cand)).contains ".." = true
        ∨ ¬ ((res root).isPrefixOf (res (res root ++ pathParts (strTrim cand))) = true)))
    ∧ ∀ p, resolve_workspace_path res root cand = .ok p →
        p = res (res root ++ pathParts (strTrim cand))
        ∧ (res root).isPrefixOf p = true := by
  unfold resolve_workspace_path
  dsimp only
  split_ifs with h1 h2 h3 h4 <;>
    constructor <;>
    simp_all

/-- Witness for C2 at a concrete input: `" a/b "` (stripped to `a/b`) resolves
under an identity filesystem to `root/a/b`, which stays inside the root. -/
theorem C2_witness :
    resolve_workspace_path id ["ws"] " a/b " = .ok ["ws", "a", "b"]
    ∧ (["ws"] : List String).isPrefixOf ["ws", "a", "b"] = true :=
  ⟨by rfl,
    ((C2_path_guard id ["ws"] " a/b ").2 ["ws", "a", "b"] (by rfl)).2⟩

/-- **C3 counterexample.**  The claim says an autonomous trigger denies every
tool whose name is not in the explicit-enable list, regardless of tier.  The
code allows an L0 tool (`read_file`) under `heartbeat` with an empty
explicit-enable list: the explicit list is only a bypass, not a requirement. -/
theorem C3_counterexample :
    "read_file" ∉ ([] : List String)
    ∧ AUTONOMOUS_TRIGGERS.contains "heartbeat" = true
    ∧ (is_allowed "read_file" .L0_READ "heartbeat" []).allowed = true := by
  refine ⟨List.not_mem_nil _, by decide, by decide⟩

/-- **C3 (amended).**  Under an autonomous trigger, a tool named in the
explicit-enable list is allowed regardless of its permission tier (the list
bypasses the L0 ceiling); a tool not in the list is not automatically denied —
it is allowed exactly when its tier is within the trigger's L0 ceiling. -/
theorem C3_autonomous_policy (toolName : String) (level : PermissionLevel)
    (trigger : String) (enabled : List String)
    (hauto : AUTONOMOUS_TRIGGERS.contains trigger = true) :
    (toolName ∈ enabled →
      is_allowed toolName level trigger enabled = ⟨true, "allowed_via_explicit_enable"⟩)
    ∧ (toolName ∉ enabled →
      ((is_allowed toolName level trigger enabled).allowed = true ↔ level = .L0_READ)) := by
  have htrig : trigger = "heartbeat" ∨ trigger = "cron" := by
    simpa [AUTONOMOUS_TRIGGERS, List.contains] using hauto
  constructor
  · intro hin
    rcases htrig with h | h <;>
      simp [is_allowed, h, AUTONOMOUS_TRIGGERS, hin]
  · intro hout
    rcases htrig with h | h <;>
      · subst h
        cases level <;>
          simp [is_allowed, AUTONOMOUS_TRIGGERS, hout, alookup,
            DEFAULT_MAX_LEVEL_BY_TRIGGER, PermissionLevel.toNat]

/-- Witness for C3: `terminal` (L3) is allowed under `cron` when explicitly
enabled by name, even though it exceeds the L0 ceiling. -/
theorem C3_witness :
    AUTONOMOUS_TRIGGERS.contains "cron" = true
    ∧ "terminal" ∈ ["terminal"]
    ∧ is_allowed "terminal" .L3_SYSTEM "cron" ["terminal"]
        = ⟨true, "allowed_via_explicit_enable"⟩ :=
  ⟨by decide, by simp,
    (C3_autonomous_policy "terminal" .L3_SYSTEM "cron" ["terminal"] (by decide)).1
      (by simp)⟩

/-- **C4.**  With the default `repeat_identical_failure_limit = 2` and a
fresh `(scope, tool, args)` key, a policy-allowed tool that deterministically
fails returns its own failure on the first two identical calls; the third
identical call returns `Fail{E_POLICY_DENIED}` with the retry-blocked message
without invoking the tool (the outcome and state are the same for every
possible tool behaviour); and an `Ok` result clears the failure counter for
the key. -/
theorem C4_retry_guard (toolName : String) (level : PermissionLevel)
    (ctx : ToolContext) (enabled : List String) (fp : String) (c m : String)
    (st0 : RunnerState)
    (hallow : (is_allowed toolName level ctx.trigger_type enabled).allowed = true)
    (hlimit : st0.repeat_identical_failure_limit = 2)
    (hfresh : alookup st0.repeat_failure_counts (scope_key ctx, toolName, fp) = none) :
    (run_tool st0 toolName level ctx enabled fp (.returns (.fail c m))).1 = .fail c m
    ∧ (run_tool (run_tool st0 toolName level ctx enabled fp (.returns (.fail c m))).2
        toolName level ctx enabled fp (.returns (.fail c m))).1 = .fail c m
    ∧ (∀ inv,
        run_tool
          (run_tool (run_tool st0 toolName level ctx enabled fp
              (.returns (.fail c m))).2
            toolName level ctx enabled fp (.returns (.fail c m))).2
          toolName level ctx enabled fp inv
        = (.fail "E_POLICY_DENIED"
              "Repeated identical tool failure; retry blocked for this run",
            (run_tool (run_tool st0 toolName level ctx enabled fp
                (.returns (.fail c m))).2
              toolName level ctx enabled fp (.returns (.fail c m))).2))
    ∧ (∀ st : RunnerState,
        (alookup st.repeat_failure_counts (scope_key ctx, toolName, fp)).getD 0
            < st.repeat_identical_failure_limit →
        alookup (run_tool st toolName level ctx enabled fp
            (.returns .ok)).2.repeat_failure_counts
          (scope_key ctx, toolName, fp) = none) := by
  have h1 : run_tool st0 toolName level ctx enabled fp (.returns (.fail c m))
      = (.fail c m,
          ⟨st0.repeat_identical_failure_limit,
            aupsert st0.repeat_failure_counts (scope_key ctx, toolName, fp) 1⟩) := by
    simp [run_tool, hallow, hfresh, hlimit]
  have h2 : run_tool
        (run_tool st0 toolName level ctx enabled fp (.returns (.fail c m))).2
        toolName level ctx enabled fp (.returns (.fail c m))
      = (.fail c m,
          ⟨st0.repeat_identical_failure_limit,
            aupsert (aupsert st0.repeat_failure_counts
              (scope_key ctx, toolName, fp) 1) (scope_key ctx, toolName, fp) 2⟩) := by
    rw [h1]
    simp [run_tool, hallow, hlimit, alookup_aupsert_self]
  refine ⟨by rw [h1], by rw [h2], ?_, ?_⟩
  · intro inv
    rw [h2]
    simp [run_tool, hallow, hlimit, alookup_aupsert_self]
  · intro st hst
    have hnb : ¬ st.repeat_identical_failure_limit
        ≤ (alookup st.repeat_failure_counts (scope_key ctx, toolName, fp)).getD 0 :=
      Nat.not_le.mpr hst
    simp [run_tool, hallow, hnb, alookup_aremove_self]

/-- Witness for C4, mirroring the repository's retry-guard test: a `chat`
run with a fresh runner state and a tool failing with `E_EXEC` yields
`E_EXEC, E_EXEC, E_POLICY_DENIED`. -/
theorem C4_witness :
    (is_allowed "failing_tool" .L0_READ "chat" []).allowed = true
    ∧ (⟨2, []⟩ : RunnerState).repeat_identical_failure_limit = 2
    ∧ alookup (⟨2, []⟩ : RunnerState).repeat_failure_counts
        (scope_key ⟨"run-1", "session-1", "chat"⟩, "failing_tool", "{}") = none
    ∧ ((run_tool ⟨2, []⟩ "failing_tool" .L0_READ ⟨"run-1", "session-1", "chat"⟩ [] "{}"
          (.returns (.fail "E_EXEC" "simulated failure"))).1
        = .fail "E_EXEC" "simulated failure"
      ∧ (run_tool (run_tool ⟨2, []⟩ "failing_tool" .L0_READ
            ⟨"run-1", "session-1", "chat"⟩ [] "{}"
            (.returns (.fail "E_EXEC" "simulated failure"))).2
          "failing_tool" .L0_READ ⟨"run-1", "session-1", "chat"⟩ [] "{}"
          (.returns (.fail "E_EXEC" "simulated failure"))).1
        = .fail "E_EXEC" "simulated failure"
      ∧ (∀ inv,
          run_tool
            (run_tool (run_tool ⟨2, []⟩ "failing_tool" .L0_READ
                ⟨"run-1", "session-1", "chat"⟩ [] "{}"
                (.returns (.fail "E_EXEC" "simulated failure"))).2
              "failing_tool" .L0_READ ⟨"run-1", "session-1", "chat"⟩ [] "{}"
              (.returns (.fail "E_EXEC" "simulated failure"))).2
            "failing_tool" .L0_READ ⟨"run-1", "session-1", "chat"⟩ [] "{}" inv
          = (.fail "E_POLICY_DENIED"
                "Repeated identical tool failure; retry blocked for this run",
              (run_tool (run_tool ⟨2, []⟩ "failing_tool" .L0_READ
                  ⟨"run-1", "session-1", "chat"⟩ [] "{}"
                  (.returns (.fail "E_EXEC" "simulated failure"))).2
                "failing_tool" .L0_READ ⟨"run-1", "session-1", "chat"⟩ [] "{}"
                (.returns (.fail "E_EXEC" "simulated failure"))).2))
      ∧ (∀ st : RunnerState,
          (alookup st.repeat_failure_counts
              (scope_key ⟨"run-1", "session-1", "chat"⟩, "failing_tool", "{}")).getD 0
              < st.repeat_identical_failure_limit →
          alookup (run_tool st "failing_tool" .L0_READ
              ⟨"run-1", "session-1", "chat"⟩ [] "{}"
              (.returns .ok)).2.repeat_failure_counts
            (scope_key ⟨"run-1", "session-1", "chat"⟩, "failing_tool", "{}") = none)) :=
  ⟨by decide, by decide, by decide,
    C4_retry_guard "failing_tool" .L0_READ ⟨"run-1", "session-1", "chat"⟩ [] "{}"
      "E_EXEC" "simulated failure" ⟨2, []⟩ (by decide) (by decide) (by decide)⟩

/-- **C1 counterexample.**  The claim says every numeric field of the
aggregated state equals the sum over source ids of the per-source maxima.
One call contributing only `output_tokens = 5` makes the normalisation step
recompute `total_tokens = 5`, although no candidate ever reported a
`total_tokens` value, whose per-source maximum is therefore 0. -/
theorem C1_counterexample :
    (accumulate_trace [("a", ⟨0, 0, 0, 0, 0, 0, 5, 0, 0, 0⟩)]).1.total_tokens = 5
    ∧ sum_of_source_maxes [("a", ⟨0, 0, 0, 0, 0, 0, 5, 0, 0, 0⟩)]
        UsageField.total_tokens = 0 := by
  constructor
  · rfl
  · rfl

/-- **C1 (amended).**  For every accumulation sequence whose source ids are
non-empty and whitespace-free (as the code's `llm_end:...`/`result:...` ids
are), the seven numeric fields that normalisation passes through
(`cache_read`, the three `cache_write`s, `output`, `reasoning`, `tool_input`)
equal the sum over source ids of the per-source maxima; `input_tokens`,
`input_uncached_tokens` and `total_tokens` may exceed those sums because
`_normalize_aggregated_usage` rederives them.  Replaying any
already-observed `(source_id, candidate)` pair is a complete no-op on the
aggregated numeric state and the sources map. -/
theorem C1_usage_accumulation (trace : List (String × Usage))
    (hids : ∀ p ∈ trace, strTrim p.1 = p.1 ∧ p.1 ≠ "") :
    (∀ f ∈ passthrough_fields,
      (accumulate_trace trace).1.get f = sum_of_source_maxes trace f)
    ∧ ∀ p ∈ trace,
        accumulate_usage_candidate (accumulate_trace trace).1
          (accumulate_trace trace).2 p.1 p.2
        = ((accumulate_trace trace).1, (accumulate_trace trace).2, false) := by
  obtain ⟨hA, hB⟩ := usage_inv_trace trace hids
  refine ⟨hA, ?_⟩
  intro p hp
  apply accumulate_noop
  intro f
  rw [(hids p hp).1, hB p.1 f]
  exact observed_max_mem trace p f hp

/-- Witness for C1, mirroring the repository's accumulation test: the same
usage shape from two distinct call ids, where the passthrough sums and the
replay no-op hold. -/
theorem C1_witness :
    (∀ p ∈ ([("call-a", ⟨100, 40, 60, 0, 0, 0, 10, 0, 0, 110⟩),
        ("call-b", ⟨100, 40, 60, 0, 0, 0, 10, 0, 0, 110⟩)] : List (String × Usage)),
      strTrim p.1 = p.1 ∧ p.1 ≠ "")
    ∧ ((∀ f ∈ passthrough_fields,
        (accumulate_trace [("call-a", ⟨100, 40, 60, 0, 0, 0, 10, 0, 0, 110⟩),
            ("call-b", ⟨100, 40, 60, 0, 0, 0, 10, 0, 0, 110⟩)]).1.get f
          = sum_of_source_maxes [("call-a", ⟨100, 40, 60, 0, 0, 0, 10, 0, 0, 110⟩),
              ("call-b", ⟨100, 40, 60, 0, 0, 0, 10, 0, 0, 110⟩)] f)
      ∧ ∀ p ∈ ([("call-a", ⟨100, 40, 60, 0, 0, 0, 10, 0, 0, 110⟩),
          ("call-b", ⟨100, 40, 60, 0, 0, 0, 10, 0, 0, 110⟩)] : List (String × Usage)),
          accumulate_usage_candidate
            (accumulate_trace [("call-a", ⟨100, 40, 60, 0, 0, 0, 10, 0, 0, 110⟩),
                ("call-b", ⟨100, 40, 60, 0, 0, 0, 10, 0, 0, 110⟩)]).1
            (accumulate_trace [("call-a", ⟨100, 40, 60, 0, 0, 0, 10, 0, 0, 110⟩),
                ("call-b", ⟨100, 40, 60, 0, 0, 0, 10, 0, 0, 110⟩)]).2 p.1 p.2
          = ((accumulate_trace [("call-a", ⟨100, 40, 60, 0, 0, 0, 10, 0, 0, 110⟩),
                ("call-b", ⟨100, 40, 60, 0, 0, 0, 10, 0, 0, 110⟩)]).1,
              (accumulate_trace [("call-a", ⟨100, 40, 60, 0, 0, 0, 10, 0, 0, 110⟩),
                ("call-b", ⟨100, 40, 60, 0, 0, 0, 10, 0, 0, 110⟩)]).2, false)) :=
  ⟨by decide, C1_usage_accumulation _ (by decide)⟩

/-- **C6 counterexample.**  The claim's recomputation formula
`max(reported, input + output + tool_input)` omits `reasoning_tokens`: on a
state with `input = 1, output = 1, reasoning = 5, total = 0` the code
produces `total_tokens = 7`, the claim's formula `2`. -/
theorem C6_counterexample :
    (normalize_aggregated_usage ⟨1, 0, 0, 0, 0, 0, 1, 5, 0, 0⟩).total_tokens = 7
    ∧ max (⟨1, 0, 0, 0, 0, 0, 1, 5, 0, 0⟩ : Usage).total_tokens
        ((normalize_aggregated_usage ⟨1, 0, 0, 0, 0, 0, 1, 5, 0, 0⟩).input_tokens
          + (⟨1, 0, 0, 0, 0, 0, 1, 5, 0, 0⟩ : Usage).output_tokens
          + (⟨1, 0, 0, 0, 0, 0, 1, 5, 0, 0⟩ : Usage).tool_input_tokens) = 2 := by
  constructor
  · rfl
  · rfl

/-- **C6 (amended).**  On componentwise non-negative aggregated states (the
only states the aggregator produces), normalisation recomputes
`total_tokens` as the maximum of the reported total and
`input_tokens + output_tokens + tool_input_tokens + reasoning_tokens`. -/
theorem C6_total_recompute (u : Usage) (hnn : ∀ f, 0 ≤ u.get f) :
    (normalize_aggregated_usage u).total_tokens
      = max u.total_tokens
          ((normalize_aggregated_usage u).input_tokens + u.output_tokens
            + u.tool_input_tokens + u.reasoning_tokens) := by
  have h1 : 0 ≤ u.input_tokens := hnn .input_tokens
  have h2 : 0 ≤ u.input_uncached_tokens := hnn .input_uncached_tokens
  have h3 : 0 ≤ u.input_cache_read_tokens := hnn .input_cache_read_tokens
  have h4 : 0 ≤ u.input_cache_write_tokens_5m := hnn .input_cache_write_tokens_5m
  have h5 : 0 ≤ u.input_cache_write_tokens_1h := hnn .input_cache_write_tokens_1h
  have h6 : 0 ≤ u.input_cache_write_tokens_unknown :=
    hnn .input_cache_write_tokens_unknown
  have h7 : 0 ≤ u.output_tokens := hnn .output_tokens
  have h8 : 0 ≤ u.reasoning_tokens := hnn .reasoning_tokens
  have h9 : 0 ≤ u.tool_input_tokens := hnn .tool_input_tokens
  have h10 : 0 ≤ u.total_tokens := hnn .total_tokens
  unfold normalize_aggregated_usage
  dsimp only
  split_ifs <;> omega

/-- Witness for C6 at the counterexample's state (all fields non-negative):
the recomputed total is `max 0 (1 + 1 + 0 + 5) = 7`. -/
theorem C6_witness :
    (∀ f, 0 ≤ (⟨1, 0, 0, 0, 0, 0, 1, 5, 0, 0⟩ : Usage).get f)
    ∧ (normalize_aggregated_usage ⟨1, 0, 0, 0, 0, 0, 1, 5, 0, 0⟩).total_tokens
      = max (⟨1, 0, 0, 0, 0, 0, 1, 5, 0, 0⟩ : Usage).total_tokens
          ((normalize_aggregated_usage ⟨1, 0, 0, 0, 0, 0, 1, 5, 0, 0⟩).input_tokens
            + (⟨1, 0, 0, 0, 0, 0, 1, 5, 0, 0⟩ : Usage).output_tokens
            + (⟨1, 0, 0, 0, 0, 0, 1, 5, 0, 0⟩ : Usage).tool_input_tokens
            + (⟨1, 0, 0, 0, 0, 0, 1, 5, 0, 0⟩ : Usage).reasoning_tokens) :=
  ⟨by decide, C6_total_recompute ⟨1, 0, 0, 0, 0, 0, 1, 5, 0, 0⟩ (by decide)⟩

lemma next_pos (now x : Int) (h : 0 ≤ now) : 0 < now + max 5 x := by
  have := le_max_left (5 : Int) x
  omega

/-- **C5 counterexample.**  A failure that reaches `max_failures` disables
the job but leaves `next_run_ts = now + backoff ≠ 0`: with
`max_failures = 1, retry_base = 30, retry_max = 3600` and `now = 100`, the
failed run yields `enabled = false` with `next_run_ts = 130`, violating
`enabled = false ⇔ next_run_ts = 0`. -/
theorem C5_counterexample :
    (run_job ⟨1, 30, 3600⟩
        ⟨"job-1", "health", .every, "60", "ping", true, 60, 0, 0, 0, 0, 0, ""⟩
        100 (.failure "boom") 0).enabled = false
    ∧ (run_job ⟨1, 30, 3600⟩
        ⟨"job-1", "health", .every, "60", "ping", true, 60, 0, 0, 0, 0, 0, ""⟩
        100 (.failure "boom") 0).next_run_ts = 130
    ∧ ¬ cron_inv (run_job ⟨1, 30, 3600⟩
        ⟨"job-1", "health", .every, "60", "ping", true, 60, 0, 0, 0, 0, 0, ""⟩
        100 (.failure "boom") 0) := by
  refine ⟨rfl, rfl, ?_⟩
  decide

/-- **C5 (amended).**  `enabled = false ⇔ next_run_ts = 0` holds after
creation, after API creation with `enabled = false`, after an API update
(when the re-enable recompute succeeds, as it does for every stored valid
schedule), and after a run of an enabled job — successful, or failed below
the failure threshold.  A failure-count-triggered disable breaks the
invariant: the job is disabled while `next_run_ts` keeps the backoff time
`now + max(5, backoff) > 0`.  (Timestamps are non-negative and the `at`/cron
oracles positive, as on a real clock.) -/
theorem C5_cron_enabled_next_run (cfg : CronConfig) (job current : CronJob)
    (req : CronJobUpdateRequest) (jobId name schedule prompt text err : String)
    (stype : ScheduleType) (request_enabled : Bool) (now_ts atTs cronNext : Int)
    (refreshTs reenableTs : Option Int)
    (hnow : 0 ≤ now_ts) (hat : 0 < atTs) (hcron : 0 < cronNext)
    (hre : ∀ ts ∈ reenableTs, 0 < ts)
    (hresome : reenableTs ≠ none) (henabled : job.enabled = true) :
    cron_inv (create_job jobId name stype schedule prompt now_ts atTs cronNext)
    ∧ cron_inv (create_cron_job_api request_enabled
        (create_job jobId name stype schedule prompt now_ts atTs cronNext))
    ∧ (∀ j ∈ update_cron_job current req now_ts refreshTs reenableTs, cron_inv j)
    ∧ cron_inv (run_job cfg job now_ts (.success text) cronNext)
    ∧ (job.failure_count + 1 < cfg.max_failures →
        cron_inv (run_job cfg job now_ts (.failure err) cronNext))
    ∧ (cfg.max_failures ≤ job.failure_count + 1 →
        (run_job cfg job now_ts (.failure err) cronNext).enabled = false
        ∧ 0 < (run_job cfg job now_ts (.failure err) cronNext).next_run_ts) := by
  have hcreate :
      cron_inv (create_job jobId name stype schedule prompt now_ts atTs cronNext) := by
    unfold cron_inv create_job
    cases stype <;> simp
    · omega
    · have := next_pos now_ts (strToInt schedule) hnow
      omega
    · omega
  refine ⟨hcreate, ?_, ?_, ?_, ?_, ?_⟩
  · unfold create_cron_job_api
    by_cases hreq : request_enabled = false
    · rw [if_pos hreq]
      unfold cron_inv
      simp
    · rw [if_neg hreq]
      exact hcreate
  · intro j hj
    obtain ⟨ts, hts⟩ : ∃ ts, reenableTs = some ts := by
      cases reenableTs with
      | none => exact absurd rfl hresome
      | some ts => exact ⟨ts, rfl⟩
    have htspos : 0 < ts := hre ts (by simp [hts])
    unfold update_cron_job at hj
    dsimp only at hj
    rw [hts] at hj
    split at hj
    · -- step1 raised: HTTP 400, nothing stored
      simp at hj
    · -- step1 produced a job; the enable/disable tail establishes the invariant
      simp only [Option.mem_def, Option.some.injEq] at hj
      subst hj
      unfold cron_inv
      split
      · rename_i hen
        simp [hen]
      · rename_i hen
        have hen' : (req.enabled.getD current.enabled) = true := by
          revert hen
          cases req.enabled.getD current.enabled <;> simp
        split
        · rename_i hle
          dsimp only
          simp [hen']
          omega
        · rename_i hle
          dsimp only
          simp [hen']
          omega
  · unfold cron_inv run_job compute_next_run
    dsimp only
    cases hjt : job.schedule_type <;> simp [henabled]
    · have := next_pos now_ts (strToInt job.schedule) hnow
      omega
    · omega
  · intro hlt
    unfold cron_inv run_job
    dsimp only
    rw [if_neg (by omega : ¬ cfg.max_failures ≤ job.failure_count + 1)]
    have := next_pos now_ts
      (min cfg.retry_max_seconds
        (cfg.retry_base_seconds * 2 ^ (max 0 (job.failure_count + 1 - 1)).toNat))
      hnow
    simp [henabled]
    omega
  · intro hge
    unfold run_job
    dsimp only
    rw [if_pos hge]
    refine ⟨rfl, ?_⟩
    exact next_pos now_ts
      (min cfg.retry_max_seconds
        (cfg.retry_base_seconds * 2 ^ (max 0 (job.failure_count + 1 - 1)).toNat))
      hnow

/-- Witness for C5 at concrete inputs: a fresh `every`-job, an API
re-enable, and a first failure under `max_failures = 3` all keep the
invariant; a failure at the threshold flips `enabled` while keeping a
positive `next_run_ts`. -/
theorem C5_witness :
    ((0 : Int) ≤ 100 ∧ (0 : Int) < 50 ∧ (0 : Int) < 200
      ∧ (∀ ts ∈ (some 600 : Option Int), 0 < ts)
      ∧ (some 600 : Option Int) ≠ none
      ∧ (⟨"j", "n", .every, "60", "p", true, 60, 0, 0, 0, 0, 0, ""⟩ :
          CronJob).enabled = true)
    ∧ (cron_inv (create_job "j2" "n" .every "60" "p" 100 50 200)
      ∧ cron_inv (create_cron_job_api false (create_job "j2" "n" .every "60" "p" 100 50 200))
      ∧ (∀ j ∈ update_cron_job ⟨"j", "n", .every, "60", "p", true, 60, 0, 0, 0, 0, 0, ""⟩
            ⟨none, none, none, none, some true⟩ 100 (some 500) (some 600), cron_inv j)
      ∧ cron_inv (run_job ⟨3, 30, 3600⟩
          ⟨"j", "n", .every, "60", "p", true, 60, 0, 0, 0, 0, 0, ""⟩ 100 (.success "done") 200)
      ∧ ((⟨"j", "n", .every, "60", "p", true, 60, 0, 0, 0, 0, 0, ""⟩ :
            CronJob).failure_count + 1 < (⟨3, 30, 3600⟩ : CronConfig).max_failures →
          cron_inv (run_job ⟨3, 30, 3600⟩
            ⟨"j", "n", .every, "60", "p", true, 60, 0, 0, 0, 0, 0, ""⟩ 100 (.failure "e") 200))
      ∧ ((⟨3, 30, 3600⟩ : CronConfig).max_failures
            ≤ (⟨"j", "n", .every, "60", "p", true, 60, 0, 0, 0, 0, 0, ""⟩ :
              CronJob).failure_count + 1 →
          (run_job ⟨3, 30, 3600⟩
            ⟨"j", "n", .every, "60", "p", true, 60, 0, 0, 0, 0, 0, ""⟩
            100 (.failure "e") 200).enabled = false
          ∧ 0 < (run_job ⟨3, 30, 3600⟩
              ⟨"j", "n", .every, "60", "p", true, 60, 0, 0, 0, 0, 0, ""⟩
              100 (.failure "e") 200).next_run_ts)) :=
  ⟨⟨by decide, by decide, by decide, by decide, by decide, by decide⟩,
    C5_cron_enabled_next_run ⟨3, 30, 3600⟩
      ⟨"j", "n", .every, "60", "p", true, 60, 0, 0, 0, 0, 0, ""⟩
      ⟨"j", "n", .every, "60", "p", true, 60, 0, 0, 0, 0, 0, ""⟩
      ⟨none, none, none, none, some true⟩
      "j2" "n" "60" "p" "done" "e" .every false 100 50 200 (some 500) (some 600)
      (by decide) (by decide) (by decide) (by decide) (by decide) (by decide)⟩

/-- **C7.**  Every result `retrieve` returns comes from a candidate row and
carries exactly the hybrid score `cosine·semantic_weight + (number of
distinct query terms contained in the lowercased chunk text)·lexical_weight`
(with the semantic term 0 when either embedding is empty); only strictly
positive scores are kept; the result list is sorted by descending score and
holds at most `top_k` entries (`top_k ≥ 1`, as the settings sanitiser
guarantees). -/
theorem C7_retrieval_scoring (cosine : List ℚ → List ℚ → ℚ)
    (rows : List RetrievalRow) (query : String) (top_k : Int)
    (semantic_weight lexical_weight : ℚ) (query_embedding : List ℚ)
    (htop : 1 ≤ top_k) :
    (∀ r ∈ retrieve cosine rows query top_k semantic_weight lexical_weight
        query_embedding,
      0 < r.1 ∧ ∃ row ∈ rows, r.2.1 = row.source ∧ r.2.2 = row.chunk_text
        ∧ r.1 = claimed_score cosine query semantic_weight lexical_weight
            query_embedding row)
    ∧ (retrieve cosine rows query top_k semantic_weight lexical_weight
        query_embedding).length ≤ top_k.toNat
    ∧ List.Sorted (fun a b : ℚ × String × String => b.1 ≤ a.1)
        (retrieve cosine rows query top_k semantic_weight lexical_weight
          query_embedding) := by
  refine ⟨?_, ?_, ?_⟩
  · intro r hr
    unfold retrieve at hr
    dsimp only at hr
    have hr1 := List.mem_of_mem_take hr
    have hr2 := List.mem_mergeSort.mp hr1
    obtain ⟨row, hrow, heq⟩ := List.mem_filterMap.mp hr2
    unfold claimed_score
    split at heq
    · rename_i hemb
      split at heq
      · rename_i hpos
        obtain rfl := Option.some.inj heq
        refine ⟨hpos, row, hrow, rfl, rfl, ?_⟩
        rw [if_pos hemb]
      · exact absurd heq (by simp)
    · rename_i hemb
      split at heq
      · rename_i hpos
        obtain rfl := Option.some.inj heq
        refine ⟨hpos, row, hrow, rfl, rfl, ?_⟩
        rw [if_neg hemb]
      · exact absurd heq (by simp)
  · unfold retrieve
    dsimp only
    rw [List.length_take]
    omega
  · unfold retrieve
    apply List.Pairwise.sublist (List.take_sublist _ _)
    have hs := @List.sorted_mergeSort (ℚ × String × String)
      (fun a b => decide (b.1 ≤ a.1))
      (fun a b c hab hbc =>
        decide_eq_true (le_trans (of_decide_eq_true hbc) (of_decide_eq_true hab)))
      (fun a b => by
        rcases le_total b.1 a.1 with h | h <;> simp [h])
      (rows.filterMap (fun row =>
        let lexical : ℚ := (((query_terms query).filter
          (fun term => strContainsSub (strLower row.chunk_text) term)).length : Nat)
        let vector := if query_embedding ≠ [] ∧ row.embedding ≠ [] then
            cosine query_embedding row.embedding
          else 0
        let score := vector * semantic_weight + lexical * lexical_weight
        if 0 < score then some (score, row.source, row.chunk_text) else none))
    exact hs.imp (fun h => of_decide_eq_true h)

/-- Witness for C7 at a concrete input: one matching row, `top_k = 2`. -/
theorem C7_witness :
    (1 : Int) ≤ 2
    ∧ ((∀ r ∈ retrieve (fun _ _ => 1) [⟨"memory/MEMORY.md", "hello world", [1]⟩]
          "hello" 2 1 1 [1],
        0 < r.1 ∧ ∃ row ∈ [(⟨"memory/MEMORY.md", "hello world", [1]⟩ : RetrievalRow)],
          r.2.1 = row.source ∧ r.2.2 = row.chunk_text
          ∧ r.1 = claimed_score (fun _ _ => 1) "hello" 1 1 [1] row)
      ∧ (retrieve (fun _ _ => 1) [⟨"memory/MEMORY.md", "hello world", [1]⟩]
          "hello" 2 1 1 [1]).length ≤ (2 : Int).toNat
      ∧ List.Sorted (fun a b : ℚ × String × String => b.1 ≤ a.1)
          (retrieve (fun _ _ => 1) [⟨"memory/MEMORY.md", "hello world", [1]⟩]
            "hello" 2 1 1 [1])) :=
  ⟨by decide,
    C7_retrieval_scoring (fun _ _ => 1) [⟨"memory/MEMORY.md", "hello world", [1]⟩]
      "hello" 2 1 1 [1] (by decide)⟩

lemma build_sections_congr (fs1 fs2 : String → Option FsEntry) (rag_mode : Bool)
    (hc : ∀ rel, (fs1 rel).map FsEntry.content = (fs2 rel).map FsEntry.content) :
    build_sections fs1 rag_mode = build_sections fs2 rag_mode := by
  unfold build_sections
  apply List.map_congr_left
  intro lr _
  split
  · rfl
  · have h := hc lr.2
    cases h1 : fs1 lr.2 with
    | none =>
        cases h2 : fs2 lr.2 with
        | none => rfl
        | some e2 =>
            rw [h1, h2] at h
            exact absurd h (by simp)
    | some e1 =>
        cases h2 : fs2 lr.2 with
        | none =>
            rw [h1, h2] at h
            exact absurd h (by simp)
        | some e2 =>
            rw [h1, h2] at h
            have h' : e1.content = e2.content := by simpa using h
            dsimp only
            rw [h']

lemma render_pack_digest_congr (fs1 fs2 : String → Option FsEntry)
    (runtime : PromptRuntime) (rag_mode : Bool)
    (hc : ∀ rel, (fs1 rel).map FsEntry.content = (fs2 rel).map FsEntry.content) :
    (render_pack fs2 runtime rag_mode).digest = (render_pack fs1 runtime rag_mode).digest := by
  unfold render_pack
  dsimp only
  rw [build_sections_congr fs1 fs2 rag_mode hc]

/-- **C9 counterexample.**  The pack digest is the sha256 of the *rendered
prompt*, not of the mtimes (the mtimes only key the cache): bumping the
mtime of `workspace/SOUL.md` without changing its content forces a rebuild
but reproduces the identical prompt, hence the identical digest — the claim
says the digest must differ. -/
theorem C9_counterexample :
    (build_system_prompt
        (build_system_prompt []
          (fun rel => if rel = "workspace/SOUL.md" then some ⟨"soul", 1⟩ else none)
          ⟨.every_turn, 20000, 60000⟩ false true).2
        (fun rel => if rel = "workspace/SOUL.md" then some ⟨"soul", 2⟩ else none)
        ⟨.every_turn, 20000, 60000⟩ false true).1.digest
      = (build_system_prompt []
          (fun rel => if rel = "workspace/SOUL.md" then some ⟨"soul", 1⟩ else none)
          ⟨.every_turn, 20000, 60000⟩ false true).1.digest
    ∧ source_mtimes (fun rel => if rel = "workspace/SOUL.md" then some ⟨"soul", 1⟩ else none)
      ≠ source_mtimes (fun rel => if rel = "workspace/SOUL.md" then some ⟨"soul", 2⟩ else none) := by
  constructor
  · rfl
  · decide

lemma build_system_prompt_empty (cache : List (PromptCacheKey × PromptPack))
    (fs : String → Option FsEntry) (runtime : PromptRuntime)
    (rag_mode is_first_turn : Bool)
    (h : runtime.injection_mode = .first_turn_only ∧ ¬ is_first_turn) :
    build_system_prompt cache fs runtime rag_mode is_first_turn
      = (⟨"", "", [], []⟩, cache) := by
  unfold build_system_prompt
  rw [if_pos h]

lemma build_system_prompt_hit (cache : List (PromptCacheKey × PromptPack))
    (fs : String → Option FsEntry) (runtime : PromptRuntime)
    (rag_mode is_first_turn : Bool) (pack : PromptPack)
    (h : ¬ (runtime.injection_mode = .first_turn_only ∧ ¬ is_first_turn))
    (hl : alookup cache (prompt_cache_key fs runtime rag_mode) = some pack) :
    build_system_prompt cache fs runtime rag_mode is_first_turn = (pack, cache) := by
  unfold build_system_prompt
  rw [if_neg h, hl]

lemma build_system_prompt_miss (cache : List (PromptCacheKey × PromptPack))
    (fs : String → Option FsEntry) (runtime : PromptRuntime)
    (rag_mode is_first_turn : Bool)
    (h : ¬ (runtime.injection_mode = .first_turn_only ∧ ¬ is_first_turn))
    (hl : alookup cache (prompt_cache_key fs runtime rag_mode) = none) :
    build_system_prompt cache fs runtime rag_mode is_first_turn
      = (render_pack fs runtime rag_mode,
          aupsert cache (prompt_cache_key fs runtime rag_mode)
            (render_pack fs runtime rag_mode)) := by
  unfold build_system_prompt
  rw [if_neg h, hl]

/-- **C9 (amended).**  Two sequential `build_system_prompt` calls with
identical source mtimes and identical mode flags return packs with equal
digests (the second hits the cache).  Modifying only mtimes does *not* by
itself change the digest: the digest is a function of the rendered prompt,
so builds over workspaces with identical section contents produce equal
digests regardless of mtimes; a digest change requires a content change. -/
theorem C9_prompt_digest (fs1 fs2 : String → Option FsEntry)
    (runtime : PromptRuntime) (rag_mode is_first_turn : Bool)
    (cache : List (PromptCacheKey × PromptPack)) :
    (source_mtimes fs1 = source_mtimes fs2 →
      (build_system_prompt
          (build_system_prompt cache fs1 runtime rag_mode is_first_turn).2
          fs2 runtime rag_mode is_first_turn).1.digest
        = (build_system_prompt cache fs1 runtime rag_mode is_first_turn).1.digest)
    ∧ ((∀ rel, (fs1 rel).map FsEntry.content = (fs2 rel).map FsEntry.content) →
      (build_system_prompt [] fs2 runtime rag_mode is_first_turn).1.digest
        = (build_system_prompt [] fs1 runtime rag_mode is_first_turn).1.digest) := by
  constructor
  · intro hm
    have hkey : prompt_cache_key fs2 runtime rag_mode
        = prompt_cache_key fs1 runtime rag_mode := by
      unfold prompt_cache_key
      rw [hm]
    by_cases hturn : runtime.injection_mode = .first_turn_only ∧ ¬ is_first_turn
    · rw [build_system_prompt_empty cache fs1 runtime rag_mode is_first_turn hturn,
        build_system_prompt_empty _ fs2 runtime rag_mode is_first_turn hturn]
    · cases hl : alookup cache (prompt_cache_key fs1 runtime rag_mode) with
      | some pack =>
          rw [build_system_prompt_hit cache fs1 runtime rag_mode is_first_turn pack
            hturn hl]
          rw [build_system_prompt_hit cache fs2 runtime rag_mode is_first_turn pack
            hturn (by rw [hkey]; exact hl)]
      | none =>
          rw [build_system_prompt_miss cache fs1 runtime rag_mode is_first_turn
            hturn hl]
          rw [build_system_prompt_hit _ fs2 runtime rag_mode is_first_turn
            (render_pack fs1 runtime rag_mode) hturn
            (by rw [hkey]; exact alookup_aupsert_self _ _ _)]
  · intro hc
    by_cases hturn : runtime.injection_mode = .first_turn_only ∧ ¬ is_first_turn
    · rw [build_system_prompt_empty [] fs1 runtime rag_mode is_first_turn hturn,
        build_system_prompt_empty [] fs2 runtime rag_mode is_first_turn hturn]
    · rw [build_system_prompt_miss [] fs1 runtime rag_mode is_first_turn hturn rfl,
        build_system_prompt_miss [] fs2 runtime rag_mode is_first_turn hturn rfl]
      exact render_pack_digest_congr fs1 fs2 runtime rag_mode hc

/-- Witness for C9: two calls over workspaces with equal mtimes (contents
even differing) return the same digest via the cache. -/
theorem C9_witness :
    source_mtimes (fun rel => if rel = "workspace/SOUL.md" then some ⟨"soul", 1⟩ else none)
      = source_mtimes (fun rel => if rel = "workspace/SOUL.md" then some ⟨"soul2", 1⟩ else none)
    ∧ (build_system_prompt
        (build_system_prompt []
          (fun rel => if rel = "workspace/SOUL.md" then some ⟨"soul", 1⟩ else none)
          ⟨.every_turn, 20000, 60000⟩ false true).2
        (fun rel => if rel = "workspace/SOUL.md" then some ⟨"soul2", 1⟩ else none)
        ⟨.every_turn, 20000, 60000⟩ false true).1.digest
      = (build_system_prompt []
          (fun rel => if rel = "workspace/SOUL.md" then some ⟨"soul", 1⟩ else none)
          ⟨.every_turn, 20000, 60000⟩ false true).1.digest :=
  ⟨by decide,
    (C9_prompt_digest
      (fun rel => if rel = "workspace/SOUL.md" then some ⟨"soul", 1⟩ else none)
      (fun rel => if rel = "workspace/SOUL.md" then some ⟨"soul2", 1⟩ else none)
      ⟨.every_turn, 20000, 60000⟩ false true []).1 (by decide)⟩

end MiniClaw
